import Mathlib

/-!
# Channel reliability and selection subsystem

A shallow embedding of `src/server/services/channel-health.js` (the per-channel
health state machine) and of `src/server/services/speed-test.js` (timeouts, the
result cache, the probe of one channel, ranking and classification of probe
results), followed by the properties established about them.

Conventions of the embedding:

* `Date.now()` is an explicit argument `now : Int` of every operation that reads
  the clock.
* The module-level `Map` called `channelHealth` is an insertion-ordered
  association list from key strings to records; the in-place mutation of a
  record is a `mapSet` at its key.
* The module-level `healthConfig` object is passed as `cfg`; the constant
  `healthConfig` holds the values written in the source.
* The freeze callback is an external function that either returns or throws;
  its invocations are reported alongside the new tracker state. In
  `recordFailureReentrant` it is also a function on the map, so that it can
  call back into the tracker.
* The URL parser, the network and the clock readings of a probe are given by an
  environment; the module-level `Map` called `testResultsCache` is an association
  list passed in and returned.
* Console output is not modelled.
-/

set_option autoImplicit false

namespace ChannelHealth

/-! ## Data model -/

/-- Fields of the `healthConfig` object. -/
structure HealthConfig where
  failureThreshold : Nat
  initialFreezeTime : Int
  maxFreezeTime : Int
  freezeMultiplier : Int
  healthCheckWindow : Nat
  deriving DecidableEq, Repr

/-- The values of `healthConfig` as written in the source. -/
def healthConfig : HealthConfig where
  failureThreshold := 3
  initialFreezeTime := 60 * 1000
  maxFreezeTime := 30 * 60 * 1000
  freezeMultiplier := 2
  healthCheckWindow := 5

/-- The three values the `status` field takes: `'healthy'`, `'frozen'`, `'checking'`. -/
inductive Status where
  | healthy
  | frozen
  | checking
  deriving DecidableEq, Repr

/-- The JavaScript string stored for a status. -/
def Status.toString : Status → String
  | .healthy => "healthy"
  | .frozen => "frozen"
  | .checking => "checking"

/-- A caller-supplied `source` argument: left out (`undefined`), `null`, or a string. -/
inductive Source where
  | omitted
  | null
  | str (s : String)
  deriving DecidableEq, Repr

/-- The default parameter `source = 'claude'`: only an omitted argument is replaced. -/
def Source.orDefault : Source → Source
  | .omitted => .str "claude"
  | s => s

/-- The expression `source || 'claude'`: every falsy source becomes `'claude'`. -/
def Source.orClaude : Source → String
  | .str s => if s = "" then "claude" else s
  | _ => "claude"

/-- One health record, the object stored in the `channelHealth` map. -/
structure Health where
  status : Status
  consecutiveFailures : Nat
  consecutiveSuccesses : Nat
  totalFailures : Nat
  totalSuccesses : Nat
  freezeUntil : Int
  nextFreezeTime : Int
  lastCheckTime : Option Int
  source : Source
  deriving DecidableEq, Repr

/-- A freeze callback that does not call back into the tracker: called with
`(source, channelId)`, it returns, or throws a message. The code runs the callback on the module
state, so a callback may also call the operations of the tracker; such a callback is a
`ModuleCallback`, and `recordFailureReentrant` is `recordFailure` with it. -/
abbrev FrozenCallback := String → String → Except String Unit

/-- Module state: the `channelHealth` map and the `onChannelFrozenCallback` slot. -/
structure Tracker where
  channelHealth : List (String × Health)
  onChannelFrozenCallback : Option FrozenCallback

/-- The module state at load time: no record, no callback. -/
def emptyTracker : Tracker where
  channelHealth := []
  onChannelFrozenCallback := none

/-- Lookup `Map.prototype.get`: the record stored under `key`, if any. -/
def mapGet : List (String × Health) → String → Option Health
  | [], _ => none
  | (k, v) :: rest, key => if k = key then some v else mapGet rest key

/-- Update `Map.prototype.set`: replace the value of an existing key in place, or append. -/
def mapSet : List (String × Health) → String → Health → List (String × Health)
  | [], key, v => [(key, v)]
  | (k, w) :: rest, key, v =>
    if k = key then (k, v) :: rest else (k, w) :: mapSet rest key v

/-! ## Operations of `channel-health.js` -/

/-- Registration `setOnChannelFrozen(callback)`. -/
def setOnChannelFrozen (t : Tracker) (callback : Option FrozenCallback) : Tracker :=
  { t with onChannelFrozenCallback := callback }

/-- Key construction `makeKey(source, channelId)`, the string `source || 'claude'`, a colon,
then the channel id. -/
def makeKey (source : Source) (channelId : String) : String :=
  source.orClaude ++ ":" ++ channelId

/-- The object literal stored by `initChannelHealth` for a key without a record. -/
def freshHealth (cfg : HealthConfig) (source : Source) : Health where
  status := .healthy
  consecutiveFailures := 0
  consecutiveSuccesses := 0
  totalFailures := 0
  totalSuccesses := 0
  freezeUntil := 0
  nextFreezeTime := cfg.initialFreezeTime
  lastCheckTime := none
  source := source

/-- Lazy creation `initChannelHealth(channelId, source)`: returns the map, extended with a fresh
record when the key had none, and the record now stored under the key. -/
def initChannelHealth (cfg : HealthConfig) (t : Tracker) (channelId : String)
    (source : Source) : Tracker × Health :=
  let source := source.orDefault
  let key := makeKey source channelId
  match mapGet t.channelHealth key with
  | some h => (t, h)
  | none =>
    let h := freshHealth cfg source
    ({ t with channelHealth := mapSet t.channelHealth key h }, h)

/-- Operation `recordSuccess(channelId, source)` at clock value `now`. -/
def recordSuccess (cfg : HealthConfig) (t : Tracker) (channelId : String) (source : Source)
    (now : Int) : Tracker :=
  let source := source.orDefault
  let (t, health) := initChannelHealth cfg t channelId source
  let health := { health with totalSuccesses := health.totalSuccesses + 1 }
  let health := { health with consecutiveSuccesses := health.consecutiveSuccesses + 1 }
  let health := { health with consecutiveFailures := 0 }
  let health := { health with lastCheckTime := some now }
  let health :=
    if health.status = .checking then
      if health.consecutiveSuccesses ≥ cfg.healthCheckWindow then
        { health with status := .healthy, nextFreezeTime := cfg.initialFreezeTime }
      else health
    else health
  { t with channelHealth := mapSet t.channelHealth (makeKey source channelId) health }

/-- What a `recordFailure` call did: the new state, the freeze-callback invocations it made (as
`(source, channelId)` argument pairs), and the exception that left the call, if any. -/
structure FailureResult where
  tracker : Tracker
  frozenCalls : List (String × String)
  thrown : Option String

/-- Operation `recordFailure(channelId, source, error)` at clock value `now`. The `error`
argument is never read by the source and is left out. The record is written before the callback
runs; the callback call is not wrapped in any handler, so what it throws leaves the call. -/
def recordFailure (cfg : HealthConfig) (t : Tracker) (channelId : String) (source : Source)
    (now : Int) : FailureResult :=
  let source := source.orDefault
  let (t, health) := initChannelHealth cfg t channelId source
  let key := makeKey source channelId
  let health := { health with totalFailures := health.totalFailures + 1 }
  let health := { health with consecutiveFailures := health.consecutiveFailures + 1 }
  let health := { health with consecutiveSuccesses := 0 }
  let health := { health with lastCheckTime := some now }
  if health.status = .healthy ∨ health.status = .checking then
    if health.consecutiveFailures ≥ cfg.failureThreshold then
      let health := { health with status := .frozen }
      let health := { health with freezeUntil := now + health.nextFreezeTime }
      let health := { health with
        nextFreezeTime := min (health.nextFreezeTime * cfg.freezeMultiplier) cfg.maxFreezeTime }
      let t := { t with channelHealth := mapSet t.channelHealth key health }
      match t.onChannelFrozenCallback with
      | some callback =>
        match callback source.orClaude channelId with
        | .ok _ => ⟨t, [(source.orClaude, channelId)], none⟩
        | .error e => ⟨t, [(source.orClaude, channelId)], some e⟩
      | none => ⟨t, [], none⟩
    else ⟨{ t with channelHealth := mapSet t.channelHealth key health }, [], none⟩
  else ⟨{ t with channelHealth := mapSet t.channelHealth key health }, [], none⟩

/-- Operation `isChannelAvailable(channelId, source)` at clock value `now`: the answer and the
state after the call. -/
def isChannelAvailable (t : Tracker) (channelId : String) (source : Source)
    (now : Int) : Bool × Tracker :=
  let source := source.orDefault
  let key := makeKey source channelId
  match mapGet t.channelHealth key with
  | none => (true, t)
  | some health =>
    match health.status with
    | .healthy => (true, t)
    | .frozen =>
      if now ≥ health.freezeUntil then
        let health := { health with status := .checking }
        let health := { health with consecutiveSuccesses := 0 }
        (true, { t with channelHealth := mapSet t.channelHealth key health })
      else (false, t)
    | .checking => (true, t)

/-- The object returned by `getChannelHealthStatus`. -/
structure HealthSnapshot where
  status : Status
  statusText : String
  statusColor : String
  consecutiveFailures : Nat
  consecutiveSuccesses : Nat
  totalFailures : Nat
  totalSuccesses : Nat
  freezeUntil : Option Int
  freezeRemaining : Int
  deriving DecidableEq, Repr

/-- The `statusMap` table of `getChannelHealthStatus`: label and colour of a status. -/
def statusMap : Status → String × String
  | .healthy => ("健康", "#18a058")
  | .frozen => ("冻结", "#d03050")
  | .checking => ("检测中", "#f0a020")

/-- Operation `getChannelHealthStatus(channelId, source)` at clock value `now`. It only reads. -/
def getChannelHealthStatus (t : Tracker) (channelId : String) (source : Source)
    (now : Int) : HealthSnapshot :=
  let source := source.orDefault
  let key := makeKey source channelId
  match mapGet t.channelHealth key with
  | none =>
    { status := .healthy
      statusText := "健康"
      statusColor := "#18a058"
      consecutiveFailures := 0
      consecutiveSuccesses := 0
      totalFailures := 0
      totalSuccesses := 0
      freezeUntil := none
      freezeRemaining := 0 }
  | some health =>
    let freezeRemaining : Int := max 0 (health.freezeUntil - now)
    { status := health.status
      statusText := (statusMap health.status).1
      statusColor := (statusMap health.status).2
      consecutiveFailures := health.consecutiveFailures
      consecutiveSuccesses := health.consecutiveSuccesses
      totalFailures := health.totalFailures
      totalSuccesses := health.totalSuccesses
      freezeUntil := some health.freezeUntil
      freezeRemaining := Int.ceil ((freezeRemaining : ℚ) / 1000) }

/-- Operation `resetChannelHealth(channelId, source)`. -/
def resetChannelHealth (cfg : HealthConfig) (t : Tracker) (channelId : String)
    (source : Source) : Tracker :=
  let source := source.orDefault
  let (t, health) := initChannelHealth cfg t channelId source
  let health := { health with status := .healthy }
  let health := { health with consecutiveFailures := 0 }
  let health := { health with consecutiveSuccesses := 0 }
  let health := { health with freezeUntil := 0 }
  let health := { health with nextFreezeTime := cfg.initialFreezeTime }
  { t with channelHealth := mapSet t.channelHealth (makeKey source channelId) health }

/-! ## Calls, call sequences and reachable states -/

/-- One call of the exported interface, with the clock value it reads. -/
inductive Op where
  | recordSuccess (channelId : String) (source : Source) (now : Int)
  | recordFailure (channelId : String) (source : Source) (now : Int)
  | isChannelAvailable (channelId : String) (source : Source) (now : Int)
  | getChannelHealthStatus (channelId : String) (source : Source) (now : Int)
  | resetChannelHealth (channelId : String) (source : Source)
  | setOnChannelFrozen (callback : Option FrozenCallback)

/-- The module state after one call. -/
def applyOp (cfg : HealthConfig) (t : Tracker) : Op → Tracker
  | .recordSuccess channelId source now => recordSuccess cfg t channelId source now
  | .recordFailure channelId source now => (recordFailure cfg t channelId source now).tracker
  | .isChannelAvailable channelId source now => (isChannelAvailable t channelId source now).2
  | .getChannelHealthStatus _ _ _ => t
  | .resetChannelHealth channelId source => resetChannelHealth cfg t channelId source
  | .setOnChannelFrozen callback => setOnChannelFrozen t callback

/-- States the module can be in: the load-time state, and whatever a call makes of such a state. -/
inductive Reachable (cfg : HealthConfig) : Tracker → Prop where
  | empty : Reachable cfg emptyTracker
  | step (t : Tracker) (op : Op) : Reachable cfg t → Reachable cfg (applyOp cfg t op)

/-- The record a call on `(channelId, source)` works on: the stored one, or the fresh one that
`initChannelHealth` would create. -/
def recordOf (cfg : HealthConfig) (t : Tracker) (channelId : String) (source : Source) : Health :=
  (mapGet t.channelHealth (makeKey source.orDefault channelId)).getD
    (freshHealth cfg source.orDefault)

/-- A run of `recordFailure` calls on one channel, one per clock value, nothing in between:
the final state and every freeze-callback invocation made, in order. -/
def recordFailures (cfg : HealthConfig) (t : Tracker) (channelId : String) (source : Source)
    (times : List Int) : Tracker × List (String × String) :=
  times.foldl
    (fun acc now =>
      let r := recordFailure cfg acc.1 channelId source now
      (r.tracker, acc.2 ++ r.frozenCalls))
    (t, [])

/-- A run of `recordSuccess` calls on one channel, one per clock value, nothing in between. -/
def recordSuccesses (cfg : HealthConfig) (t : Tracker) (channelId : String) (source : Source)
    (times : List Int) : Tracker :=
  times.foldl (fun acc now => recordSuccess cfg acc channelId source now) t

/-- A call on one fixed channel. -/
inductive ChannelCall where
  | success (now : Int)
  | failure (now : Int)
  | available (now : Int)
  | status (now : Int)
  | reset

/-- What an observer of one channel sees a call do to its record. -/
inductive Event where
  | froze (duration : Int)
  | recovered
  | reset
  | other
  deriving DecidableEq, Repr

/-- One call on the channel `(channelId, source)`: the new state and the observed event. A
failure that takes the record into `frozen` is reported with the applied duration, `freezeUntil`
minus the time of the call; a success that takes it from `checking` to `healthy` is a recovery. -/
def channelStep (cfg : HealthConfig) (t : Tracker) (channelId : String) (source : Source) :
    ChannelCall → Tracker × Event
  | .success now =>
    let before := recordOf cfg t channelId source
    let t2 := recordSuccess cfg t channelId source now
    let after := recordOf cfg t2 channelId source
    (t2, if before.status = .checking ∧ after.status = .healthy then .recovered else .other)
  | .failure now =>
    let before := recordOf cfg t channelId source
    let t2 := (recordFailure cfg t channelId source now).tracker
    let after := recordOf cfg t2 channelId source
    (t2, if before.status ≠ .frozen ∧ after.status = .frozen then
        .froze (after.freezeUntil - now) else .other)
  | .available now => ((isChannelAvailable t channelId source now).2, .other)
  | .status _ => (t, .other)
  | .reset => (resetChannelHealth cfg t channelId source, .reset)

/-- The events of a sequence of calls on one channel, in order. -/
def channelEvents (cfg : HealthConfig) (t : Tracker) (channelId : String) (source : Source) :
    List ChannelCall → List Event
  | [] => []
  | call :: rest =>
    let r := channelStep cfg t channelId source call
    r.2 :: channelEvents cfg r.1 channelId source rest

/-- The freeze durations among a list of events, in order. -/
def freezeDurations : List Event → List Int
  | [] => []
  | .froze d :: rest => d :: freezeDurations rest
  | _ :: rest => freezeDurations rest

/-- The duration that follows `d` in the back-off schedule of `recordFailure`. -/
def nextDuration (cfg : HealthConfig) (d : Int) : Int :=
  min (d * cfg.freezeMultiplier) cfg.maxFreezeTime

/-- The first `n` durations of the back-off schedule that starts at `d`. -/
def schedule (cfg : HealthConfig) (d : Int) : Nat → List Int
  | 0 => []
  | n + 1 => d :: schedule cfg (nextDuration cfg d) n

/-- The module state after a list of calls, made in order. -/
def runOps (cfg : HealthConfig) (t : Tracker) (ops : List Op) : Tracker :=
  ops.foldl (applyOp cfg) t

/-- A probing scenario on channel `C1` with the default configuration: a callback is
registered, three failures freeze the channel until 60030, the availability check at 60030
starts probing, and one success is recorded at 60040. -/
def probingScenario : List Op :=
  [ .setOnChannelFrozen (some fun _ _ => .ok ()),
    .recordFailure "C1" .omitted 10,
    .recordFailure "C1" .omitted 20,
    .recordFailure "C1" .omitted 30,
    .isChannelAvailable "C1" .omitted 60030,
    .recordSuccess "C1" .omitted 60040 ]

/-! ## Record-level description of the operations -/

/-- Whether a failure recorded on `h` passes the two guards of `recordFailure`. -/
def Health.freezesOnFailure (cfg : HealthConfig) (h : Health) : Prop :=
  (h.status = .healthy ∨ h.status = .checking) ∧ h.consecutiveFailures + 1 ≥ cfg.failureThreshold

instance (cfg : HealthConfig) (h : Health) : Decidable (h.freezesOnFailure cfg) := by
  unfold Health.freezesOnFailure; infer_instance

/-- The record `recordFailure` leaves behind when it worked on `h` at time `now`. -/
def Health.afterFailure (cfg : HealthConfig) (h : Health) (now : Int) : Health :=
  if h.freezesOnFailure cfg then
    { h with
      status := .frozen
      totalFailures := h.totalFailures + 1
      consecutiveFailures := h.consecutiveFailures + 1
      consecutiveSuccesses := 0
      lastCheckTime := some now
      freezeUntil := now + h.nextFreezeTime
      nextFreezeTime := min (h.nextFreezeTime * cfg.freezeMultiplier) cfg.maxFreezeTime }
  else
    { h with
      totalFailures := h.totalFailures + 1
      consecutiveFailures := h.consecutiveFailures + 1
      consecutiveSuccesses := 0
      lastCheckTime := some now }

/-- Whether a success recorded on `h` passes the two guards of `recordSuccess`. -/
def Health.recoversOnSuccess (cfg : HealthConfig) (h : Health) : Prop :=
  h.status = .checking ∧ h.consecutiveSuccesses + 1 ≥ cfg.healthCheckWindow

instance (cfg : HealthConfig) (h : Health) : Decidable (h.recoversOnSuccess cfg) := by
  unfold Health.recoversOnSuccess; infer_instance

/-- The record `recordSuccess` leaves behind when it worked on `h` at time `now`. -/
def Health.afterSuccess (cfg : HealthConfig) (h : Health) (now : Int) : Health :=
  if h.recoversOnSuccess cfg then
    { h with
      status := .healthy
      totalSuccesses := h.totalSuccesses + 1
      consecutiveSuccesses := h.consecutiveSuccesses + 1
      consecutiveFailures := 0
      lastCheckTime := some now
      nextFreezeTime := cfg.initialFreezeTime }
  else
    { h with
      totalSuccesses := h.totalSuccesses + 1
      consecutiveSuccesses := h.consecutiveSuccesses + 1
      consecutiveFailures := 0
      lastCheckTime := some now }

/-- The record `isChannelAvailable` leaves behind when it found `h` frozen past its expiry. -/
def Health.afterExpiry (h : Health) : Health :=
  { h with status := .checking, consecutiveSuccesses := 0 }

/-- The record `resetChannelHealth` leaves behind when it worked on `h`. -/
def Health.afterReset (cfg : HealthConfig) (h : Health) : Health :=
  { h with
    status := .healthy
    consecutiveFailures := 0
    consecutiveSuccesses := 0
    freezeUntil := 0
    nextFreezeTime := cfg.initialFreezeTime }

/-- The callback invocations of a freezing `recordFailure` call. -/
def frozenCallsOf (t : Tracker) (source : String) (channelId : String) : List (String × String) :=
  match t.onChannelFrozenCallback with
  | some _ => [(source, channelId)]
  | none => []

/-- The exception a freezing `recordFailure` call lets through: what the callback throws. -/
def thrownOf (t : Tracker) (source : String) (channelId : String) : Option String :=
  match t.onChannelFrozenCallback with
  | some callback =>
    match callback source channelId with
    | .ok _ => none
    | .error e => some e
  | none => none

/-- Bounds on the stored back-off duration that hold for every record of a reachable state. -/
def Health.backoffOk (cfg : HealthConfig) (h : Health) : Prop :=
  cfg.initialFreezeTime ≤ h.nextFreezeTime ∧
    (h.status ≠ .healthy →
      ∃ p, cfg.initialFreezeTime ≤ p ∧ h.nextFreezeTime = nextDuration cfg p)

/-! ## Enumeration of the tracked channels -/

/-- Splitting of a character list at every occurrence of `sep`, as `String.prototype.split`
does for a one-character separator: the pieces between the separators, always at least one. -/
def splitChars (sep : Char) : List Char → List (List Char)
  | [] => [[]]
  | c :: rest =>
    if c = sep then [] :: splitChars sep rest
    else
      match splitChars sep rest with
      | [] => [[c]]
      | piece :: pieces => (c :: piece) :: pieces

/-- The call `key.split(':')`. -/
def splitColon (key : String) : List String :=
  (splitChars ':' key.data).map String.mk

/-- Lookup of a property in the plain object built by `getAllChannelHealthStatus`. -/
def objGet : List (String × HealthSnapshot) → String → Option HealthSnapshot
  | [], _ => none
  | (k, v) :: rest, key => if k = key then some v else objGet rest key

/-- Creation or overwriting of the own property `key` of a plain object. -/
def objSetOwn : List (String × HealthSnapshot) → String → HealthSnapshot →
    List (String × HealthSnapshot)
  | [], key, v => [(key, v)]
  | (k, w) :: rest, key, v =>
    if k = key then (k, v) :: rest else (k, w) :: objSetOwn rest key v

/-- The assignment `result[channelId] = snapshot` on a plain object. It creates or overwrites
an own property, except for the key `__proto__`: that assignment goes to the setter inherited
from `Object.prototype`, which replaces the prototype of `result` and creates no own property.
The list holds the own properties in order of creation; an engine enumerates integer-like keys
first, an order that no statement below depends on. -/
def objSet (result : List (String × HealthSnapshot)) (key : String) (v : HealthSnapshot) :
    List (String × HealthSnapshot) :=
  if key = "__proto__" then result else objSetOwn result key v

/-- One turn of the loop of `getAllChannelHealthStatus` on the map key `key`. The destructuring
`const [keySource, channelId] = key.split(':')` keeps the first two pieces; a missing second
piece is `undefined`, which both uses of `channelId` turn into the string `'undefined'`. -/
def getAllStep (t : Tracker) (source : Source) (now : Int)
    (result : List (String × HealthSnapshot)) (key : String) : List (String × HealthSnapshot) :=
  match splitColon key with
  | [] => result
  | keySource :: rest =>
    let channelId := rest.head?.getD "undefined"
    if keySource = source.orClaude then
      objSet result channelId (getChannelHealthStatus t channelId (.str keySource) now)
    else result

/-- Operation `getAllChannelHealthStatus(source)` at clock value `now`: the own properties of
the returned object, in order of creation. -/
def getAllChannelHealthStatus (t : Tracker) (source : Source) (now : Int) :
    List (String × HealthSnapshot) :=
  let source := source.orDefault
  (t.channelHealth.map Prod.fst).foldl (getAllStep t source now) []

/-- The facts of claim C19 about one record: a healthy record is below the failure threshold,
the consecutive counters do not exceed the totals, and the stored back-off duration lies
between the initial and the maximal freeze time. -/
def Health.countersOk (cfg : HealthConfig) (h : Health) : Prop :=
  (h.status = .healthy → h.consecutiveFailures < cfg.failureThreshold) ∧
    h.consecutiveFailures ≤ h.totalFailures ∧
    h.consecutiveSuccesses ≤ h.totalSuccesses ∧
    cfg.initialFreezeTime ≤ h.nextFreezeTime ∧
    h.nextFreezeTime ≤ cfg.maxFreezeTime

/-- A state with one tracked channel whose id contains a colon: one failure was recorded at
time 10 on channel `a:b` of the default source. -/
def colonIdTracker : Tracker :=
  (recordFailure healthConfig emptyTracker "a:b" .omitted 10).tracker

/-- The effective identity of a channel: the source after defaulting, and the channel id. -/
def channelPair (source : Source) (channelId : String) : String × String :=
  (source.orDefault.orClaude, channelId)

/-- A map key with exactly one colon: a source and a channel id, neither containing a colon,
the id not being the property name `__proto__`. -/
def GoodKey (key : String) : Prop :=
  ∃ source channelId : String,
    key = source ++ ":" ++ channelId ∧ ':' ∉ source.data ∧ ':' ∉ channelId.data ∧
      channelId ≠ "__proto__"

/-! ## The freeze callback as a function on the module state -/

/-- A freeze callback as the code runs it: called with `(source, channelId)` while the module
holds the map it is given, it may call any operation of the tracker, so it hands back the map
it leaves, and it returns or throws a message. -/
abbrev ModuleCallback :=
  String → String → List (String × Health) → List (String × Health) × Except String Unit

/-- A callback that leaves the tracker alone, as a function on the module state. -/
def FrozenCallback.toModule (callback : FrozenCallback) : ModuleCallback :=
  fun source channelId health => (health, callback source channelId)

/-- Operation `recordFailure(channelId, source, error)` at clock value `now`, where
`callback` is the function held in `onChannelFrozenCallback`, acting on the module state. The
statements are those of `recordFailure`; the record is written to the map, then the callback
runs on that map, and nothing is written after it: the map left by the call is the map left by
the callback, whether it returns or throws. -/
def recordFailureReentrant (cfg : HealthConfig) (t : Tracker) (callback : Option ModuleCallback)
    (channelId : String) (source : Source) (now : Int) : FailureResult :=
  let source := source.orDefault
  let (t, health) := initChannelHealth cfg t channelId source
  let key := makeKey source channelId
  let health := { health with totalFailures := health.totalFailures + 1 }
  let health := { health with consecutiveFailures := health.consecutiveFailures + 1 }
  let health := { health with consecutiveSuccesses := 0 }
  let health := { health with lastCheckTime := some now }
  if health.status = .healthy ∨ health.status = .checking then
    if health.consecutiveFailures ≥ cfg.failureThreshold then
      let health := { health with status := .frozen }
      let health := { health with freezeUntil := now + health.nextFreezeTime }
      let health := { health with
        nextFreezeTime := min (health.nextFreezeTime * cfg.freezeMultiplier) cfg.maxFreezeTime }
      let t := { t with channelHealth := mapSet t.channelHealth key health }
      match callback with
      | some callback =>
        let ran := callback source.orClaude channelId t.channelHealth
        match ran.2 with
        | .ok _ => ⟨{ t with channelHealth := ran.1 }, [(source.orClaude, channelId)], none⟩
        | .error e => ⟨{ t with channelHealth := ran.1 }, [(source.orClaude, channelId)], some e⟩
      | none => ⟨t, [], none⟩
    else ⟨{ t with channelHealth := mapSet t.channelHealth key health }, [], none⟩
  else ⟨{ t with channelHealth := mapSet t.channelHealth key health }, [], none⟩

/-- The record that a freezing `recordFailure` call at time `now` writes in place of `h`,
before it calls the callback. -/
def Health.frozenAt (cfg : HealthConfig) (h : Health) (now : Int) : Health :=
  { h with
    status := .frozen
    totalFailures := h.totalFailures + 1
    consecutiveFailures := h.consecutiveFailures + 1
    consecutiveSuccesses := 0
    lastCheckTime := some now
    freezeUntil := now + h.nextFreezeTime
    nextFreezeTime := min (h.nextFreezeTime * cfg.freezeMultiplier) cfg.maxFreezeTime }

/-- The callback `(source, channelId) => resetChannelHealth(channelId, source)` under the
default configuration. -/
def resettingCallback : ModuleCallback :=
  fun source channelId health =>
    ((resetChannelHealth healthConfig
      { channelHealth := health, onChannelFrozenCallback := none }
      channelId (.str source)).channelHealth, .ok ())


end ChannelHealth

namespace SpeedTest

/-! ## Probe results of `speed-test.js`, their ranking and classification -/

/-- The result object built by `testChannelSpeed`. The early-return results carry no `testedAt`. -/
structure ProbeResult where
  channelId : String
  channelName : String
  success : Bool
  statusCode : Option Int
  error : Option String
  latency : Option Int
  testedAt : Option Int
  deriving DecidableEq, Repr

/-- The JavaScript numbers a comparator over integer latencies can return. -/
inductive JsNumber where
  | finite (n : Int)
  | posInf
  | negInf
  | nan
  deriving DecidableEq, Repr

/-- Subtraction of JavaScript numbers. -/
def JsNumber.sub : JsNumber → JsNumber → JsNumber
  | .nan, _ => .nan
  | _, .nan => .nan
  | .finite a, .finite b => .finite (a - b)
  | .finite _, .posInf => .negInf
  | .finite _, .negInf => .posInf
  | .posInf, .posInf => .nan
  | .posInf, _ => .posInf
  | .negInf, .negInf => .nan
  | .negInf, _ => .negInf

/-- The expression `latency || Infinity`: `null` and `0` are both falsy. -/
def latencyOrInfinity : Option Int → JsNumber
  | none => .posInf
  | some n => if n = 0 then .posInf else .finite n

/-- The comparator passed to `results.sort` in `testMultipleChannels`. -/
def compareResults (a b : ProbeResult) : JsNumber :=
  if a.success && !b.success then .finite (-1)
  else if !a.success && b.success then .finite 1
  else if a.success && b.success then
    (latencyOrInfinity a.latency).sub (latencyOrInfinity b.latency)
  else .finite 0

/-- Whether `Array.prototype.sort` may leave `a` in front of `b` when the comparator returned
`v` for `(a, b)`: a negative value or zero, where `NaN` counts as zero. -/
def JsNumber.keepsOrder : JsNumber → Bool
  | .finite n => decide (n ≤ 0)
  | .posInf => false
  | .negInf => true
  | .nan => true

/-- Insertion of `a` in front of the first element it may precede. -/
def orderedInsert {α : Type} (cmp : α → α → JsNumber) (a : α) : List α → List α
  | [] => [a]
  | b :: rest => if (cmp a b).keepsOrder then a :: b :: rest else b :: orderedInsert cmp a rest

/-- The method `Array.prototype.sort(comparefn)`, as the stable insertion sort. The language
requires the sort to be stable, so for a consistent comparator every conforming engine returns
this list. -/
def arraySort {α : Type} (cmp : α → α → JsNumber) : List α → List α
  | [] => []
  | a :: rest => orderedInsert cmp a (arraySort cmp rest)

/-- The function `testMultipleChannels` from the point where every probe has settled:
`results` are the awaited results of `testChannelSpeed`, in channel order. -/
def testMultipleChannels (results : List ProbeResult) : List ProbeResult :=
  arraySort compareResults results

/-- The function `getLatencyLevel(latency)`; `none` is `null` or `undefined`. The guard
`!latency` is true of `null`, of `undefined` and of the number 0. -/
def getLatencyLevel (latency : Option Int) : String :=
  match latency with
  | none => "unknown"
  | some ms =>
    if ms = 0 then "unknown"
    else if ms < 300 then "excellent"
    else if ms < 500 then "good"
    else if ms < 800 then "fair"
    else "poor"

/-- Comparison of two latencies where both were measured. -/
def latencyLe : Option Int → Option Int → Bool
  | some x, some y => decide (x ≤ y)
  | _, _ => true

/-- The order the comment in `testMultipleChannels` announces, between a result `a` and a
later result `b`: no failure in front of a success, and latencies of successes ascending. -/
def rankedBefore (a b : ProbeResult) : Prop :=
  (b.success = true → a.success = true) ∧
    (a.success = true → b.success = true → latencyLe a.latency b.latency = true)

instance (a b : ProbeResult) : Decidable (rankedBefore a b) := by
  unfold rankedBefore; infer_instance

/-- A list in the announced order: successes first, by ascending latency. -/
def Ranked (results : List ProbeResult) : Prop :=
  results.Pairwise rankedBefore

instance (results : List ProbeResult) : Decidable (Ranked results) := by
  unfold Ranked; infer_instance

/-- A result whose latency is a measured, non-zero number when it is a success. -/
def hasNonZeroLatency (r : ProbeResult) : Prop :=
  r.success = true → ∃ n, r.latency = some n ∧ n ≠ 0

/-- A success measured at 0 ms, as `testChannelSpeed` builds it when the timed request
completes within the same millisecond. -/
def instantResult : ProbeResult where
  channelId := "a"
  channelName := "A"
  success := true
  statusCode := some 200
  error := none
  latency := some 0
  testedAt := some 1000

/-- A success measured at 5 ms. -/
def quickResult : ProbeResult where
  channelId := "b"
  channelName := "B"
  success := true
  statusCode := some 200
  error := none
  latency := some 5
  testedAt := some 1000

/-! ## Timeouts, the result cache and the probe of one channel -/

/-- The constant `DEFAULT_TIMEOUT`, in milliseconds. -/
def DEFAULT_TIMEOUT : Int := 8000

/-- The constant `MIN_TIMEOUT`, in milliseconds. -/
def MIN_TIMEOUT : Int := 2000

/-- The constant `MAX_TIMEOUT`, in milliseconds. -/
def MAX_TIMEOUT : Int := 30000

/-- The function `sanitizeTimeout(timeout)` on an integer number of milliseconds; `none` is an
omitted (or `null`) argument. The expression `timeout || DEFAULT_TIMEOUT` replaces every falsy
value, so also the number 0. -/
def sanitizeTimeout (timeout : Option Int) : Int :=
  let ms :=
    match timeout with
    | none => DEFAULT_TIMEOUT
    | some v => if v = 0 then DEFAULT_TIMEOUT else v
  min (max ms MIN_TIMEOUT) MAX_TIMEOUT

/-- The module-level `Map` called `testResultsCache`, from channel ids to results. -/
abbrev TestResultsCache := List (String × ProbeResult)

/-- Lookup `testResultsCache.get(channelId)`. -/
def cacheGet : TestResultsCache → String → Option ProbeResult
  | [], _ => none
  | (k, v) :: rest, key => if k = key then some v else cacheGet rest key

/-- Update `testResultsCache.set(channelId, result)`. -/
def cacheSet : TestResultsCache → String → ProbeResult → TestResultsCache
  | [], key, v => [(key, v)]
  | (k, w) :: rest, key, v =>
    if k = key then (k, v) :: rest else (k, w) :: cacheSet rest key v

/-- The test `Date.now() - cached.testedAt < 5 * 60 * 1000`; with `testedAt` undefined the
difference is `NaN` and the comparison is false. -/
def isFresh (cached : ProbeResult) (now : Int) : Bool :=
  match cached.testedAt with
  | some testedAt => decide (now - testedAt < 5 * 60 * 1000)
  | none => false

/-- The function `getCachedResult(channelId)` at clock value `now`: the answer (`none` is
`null`) and the cache after the call. -/
def getCachedResult (cache : TestResultsCache) (channelId : String) (now : Int) :
    Option ProbeResult × TestResultsCache :=
  match cacheGet cache channelId with
  | some cached => if isFresh cached now then (some cached, cache) else (none, cache)
  | none => (none, cache)

/-- The function `clearCache()`. -/
def clearCache (_cache : TestResultsCache) : TestResultsCache := []

/-- A channel descriptor `{id, name, baseUrl, apiKey}`; `none` is a missing (or `null`) field. -/
structure Channel where
  id : String
  name : String
  baseUrl : Option String
  apiKey : Option String
  deriving DecidableEq, Repr

/-- What the network does to one request, as seen by the handlers of `makeRequest`: a complete
response, an `error` event with its `code` and `message`, a `timeout` event, or an exception
thrown while the request is being set up. -/
inductive NetworkEvent where
  | response (statusCode : Int)
  | error (code : Option String) (message : Option String)
  | timeout
  | threw (message : Option String)
  deriving DecidableEq, Repr

/-- The object `{statusCode, error}` that the promise of `makeRequest` resolves with. -/
structure RequestResult where
  statusCode : Option Int
  error : Option String
  deriving DecidableEq, Repr

/-- The expression `message || fallback` on an optional string. -/
def orElse (message : Option String) (fallback : String) : String :=
  match message with
  | some m => if m = "" then fallback else m
  | none => fallback

/-- The function `makeRequest(url, apiKey, timeout)`, given what the network did to the
request: the value the promise resolves with, or the message of the exception it rejects with. -/
def makeRequest (event : NetworkEvent) : Except (Option String) RequestResult :=
  match event with
  | .response statusCode => .ok { statusCode := some statusCode, error := none }
  | .error code message =>
    let errorMsg :=
      if code = some "ECONNREFUSED" then "连接被拒绝"
      else if code = some "ETIMEDOUT" then "连接超时"
      else if code = some "ENOTFOUND" then "DNS 解析失败"
      else if code = some "ECONNRESET" then "连接被重置"
      else orElse message "连接失败"
    .ok { statusCode := none, error := some errorMsg }
  | .timeout => .ok { statusCode := none, error := some "请求超时" }
  | .threw message => .error message

/-- Everything outside the module that one call of `testChannelSpeed` depends on.
`urlToString s` is `new URL(s.trim()).toString()`, or the message of the exception it throws;
`network i url apiKey timeout` is what happens to the `i`-th request of the call (0 is the
warm-up, 1 the timed one); the three clock values are the successive readings of `Date.now()`. -/
structure ProbeEnv where
  urlToString : String → Except String String
  network : Nat → String → Option String → Int → NetworkEvent
  startTime : Int
  endTime : Int
  testedAt : Int

/-- The replacement `.replace(/\/+$/, '')`: the string without its trailing slashes. -/
def stripTrailingSlashes (s : String) : String :=
  String.mk (s.data.reverse.dropWhile (fun c => c = '/')).reverse

/-- What a call of `testChannelSpeed` did: the returned result, the cache after the call and
the number of requests issued. -/
structure ProbeOutcome where
  result : ProbeResult
  cache : TestResultsCache
  requests : Nat
  deriving DecidableEq, Repr

/-- The failure object returned by the three paths of `testChannelSpeed` that measure nothing. -/
def failureResult (channel : Channel) (error : String) : ProbeResult where
  channelId := channel.id
  channelName := channel.name
  success := false
  statusCode := none
  error := some error
  latency := none
  testedAt := none

/-- What a running call of `testChannelSpeed` has done so far: the cache as it stands and the
number of requests issued. It outlives an exception thrown in the `try` block. -/
structure ProbeState where
  cache : TestResultsCache
  requests : Nat
  deriving DecidableEq, Repr

/-- One call `makeRequest(url, apiKey, timeout)` made by `testChannelSpeed`: the network is
asked about the request whose number is the count of requests issued before it, and the count
goes up by one. -/
def issueRequest (env : ProbeEnv) (state : ProbeState) (url : String) (apiKey : Option String)
    (timeout : Int) : ProbeState × Except (Option String) RequestResult :=
  ({ state with requests := state.requests + 1 },
    makeRequest (env.network state.requests url apiKey timeout))

/-- The `try` block of `testChannelSpeed`: the state it leaves, and the result it returns or
the message of the exception that leaves it. The only statement that can throw is the `await`
of the timed request, when its promise rejects; a rejection of the warm-up is swallowed by
`.catch`. -/
def testChannelSpeedTry (env : ProbeEnv) (cache : TestResultsCache) (channel : Channel)
    (sanitizedTimeout : Int) : ProbeState × Except (Option String) ProbeResult :=
  let state : ProbeState := { cache := cache, requests := 0 }
  if channel.baseUrl = none ∨ channel.baseUrl = some "" then
    (state, .ok (failureResult channel "URL 不能为空"))
  else
    match env.urlToString (channel.baseUrl.getD "") with
    | .error urlError => (state, .ok (failureResult channel ("URL 无效: " ++ urlError)))
    | .ok url =>
      let testUrl := stripTrailingSlashes url
      let warmup := issueRequest env state testUrl channel.apiKey sanitizedTimeout
      let timed := issueRequest env warmup.1 testUrl channel.apiKey sanitizedTimeout
      match timed.2 with
      | .error message => (timed.1, .error message)
      | .ok result =>
        let latency := env.endTime - env.startTime
        let success := result.statusCode.isSome
        let finalResult : ProbeResult :=
          { channelId := channel.id
            channelName := channel.name
            success := success
            statusCode := result.statusCode
            error := result.error
            latency := if success then some latency else none
            testedAt := some env.testedAt }
        ({ timed.1 with cache := cacheSet timed.1.cache channel.id finalResult },
          .ok finalResult)

/-- The function `testChannelSpeed(channel, timeout)`: the outcome when it returns, or the
exception that reaches its caller. The `catch` clause turns what leaves the `try` block into a
failure result; it writes nothing. -/
def testChannelSpeed (env : ProbeEnv) (cache : TestResultsCache) (channel : Channel)
    (timeout : Option Int) : Except String ProbeOutcome :=
  let timeout := match timeout with
    | none => some DEFAULT_TIMEOUT
    | some v => some v
  let sanitizedTimeout := sanitizeTimeout timeout
  let tried := testChannelSpeedTry env cache channel sanitizedTimeout
  match tried.2 with
  | .ok result =>
    .ok { result := result, cache := tried.1.cache, requests := tried.1.requests }
  | .error message =>
    .ok { result := failureResult channel (orElse message "连接失败"), cache := tried.1.cache,
          requests := tried.1.requests }

/-- An environment in which every URL parses to itself and every request is answered 200; the
clock reads 1000, 1005 and 1006. -/
def respondingEnv : ProbeEnv where
  urlToString := fun s => .ok s
  network := fun _ _ _ _ => .response 200
  startTime := 1000
  endTime := 1005
  testedAt := 1006

/-- An environment in which every URL parses to itself and every request is answered 503; the
clock reads 1000, 1005 and 1006. -/
def overloadedEnv : ProbeEnv where
  urlToString := fun s => .ok s
  network := fun _ _ _ _ => .response 503
  startTime := 1000
  endTime := 1005
  testedAt := 1006

/-- A channel descriptor without a base URL. -/
def channelWithoutUrl : Channel where
  id := "c1"
  name := "first"
  baseUrl := none
  apiKey := none

/-- A channel descriptor with a base URL. -/
def channelWithUrl : Channel where
  id := "c1"
  name := "first"
  baseUrl := some "https://api.example.com/"
  apiKey := some "key"

end SpeedTest

/-! # Properties -/

namespace ChannelHealth

/-! ## The map and the lazily created record -/

theorem Source.orDefault_idem (s : Source) : s.orDefault.orDefault = s.orDefault := by
  cases s <;> rfl

theorem mapGet_mapSet_self (m : List (String × Health)) (k : String) (v : Health) :
    mapGet (mapSet m k v) k = some v := by
  induction m with
  | nil => simp [mapSet, mapGet]
  | cons p rest ih =>
    obtain ⟨k0, w⟩ := p
    by_cases hk : k0 = k
    · simp [mapSet, mapGet, hk]
    · simp [mapSet, mapGet, hk, ih]

theorem mapGet_mapSet_ne (m : List (String × Health)) (k k2 : String) (v : Health)
    (hne : k ≠ k2) : mapGet (mapSet m k v) k2 = mapGet m k2 := by
  induction m with
  | nil => simp [mapSet, mapGet, hne]
  | cons p rest ih =>
    obtain ⟨k0, w⟩ := p
    by_cases hk : k0 = k
    · subst hk
      simp [mapSet, mapGet, hne]
    · by_cases hk2 : k0 = k2
      · subst hk2
        simp [mapSet, mapGet, hk]
      · simp [mapSet, mapGet, hk, hk2, ih]

theorem mapSet_mapSet (m : List (String × Health)) (k : String) (v w : Health) :
    mapSet (mapSet m k v) k w = mapSet m k w := by
  induction m with
  | nil => simp [mapSet]
  | cons p rest ih =>
    obtain ⟨k0, u⟩ := p
    by_cases hk : k0 = k
    · simp [mapSet, hk]
    · simp [mapSet, hk, ih]

theorem recordOf_orDefault (cfg : HealthConfig) (t : Tracker) (channelId : String)
    (source : Source) :
    recordOf cfg t channelId source.orDefault = recordOf cfg t channelId source := by
  simp [recordOf, Source.orDefault_idem]

theorem recordOf_of_some (cfg : HealthConfig) (t : Tracker) (channelId : String)
    (source : Source) (h : Health)
    (hget : mapGet t.channelHealth (makeKey source.orDefault channelId) = some h) :
    recordOf cfg t channelId source = h := by
  simp [recordOf, hget]

theorem recordOf_of_none (cfg : HealthConfig) (t : Tracker) (channelId : String)
    (source : Source)
    (hget : mapGet t.channelHealth (makeKey source.orDefault channelId) = none) :
    recordOf cfg t channelId source = freshHealth cfg source.orDefault := by
  simp [recordOf, hget]

theorem recordOf_mapSet (cfg : HealthConfig) (t : Tracker) (channelId : String)
    (source : Source) (v : Health) :
    recordOf cfg
        { t with channelHealth := (mapSet t.channelHealth (makeKey source.orDefault channelId) v) }
        channelId source = v := by
  simp [recordOf, mapGet_mapSet_self]

theorem initChannelHealth_snd (cfg : HealthConfig) (t : Tracker) (channelId : String)
    (source : Source) :
    (initChannelHealth cfg t channelId source).2 = recordOf cfg t channelId source := by
  unfold initChannelHealth recordOf
  cases hget : mapGet t.channelHealth (makeKey source.orDefault channelId) <;> simp [hget]

theorem initChannelHealth_callback (cfg : HealthConfig) (t : Tracker) (channelId : String)
    (source : Source) :
    (initChannelHealth cfg t channelId source).1.onChannelFrozenCallback =
      t.onChannelFrozenCallback := by
  unfold initChannelHealth
  cases hget : mapGet t.channelHealth (makeKey source.orDefault channelId) <;> simp [hget]

theorem initChannelHealth_mapSet (cfg : HealthConfig) (t : Tracker) (channelId : String)
    (source : Source) (v : Health) :
    mapSet (initChannelHealth cfg t channelId source).1.channelHealth
        (makeKey source.orDefault channelId) v =
      mapSet t.channelHealth (makeKey source.orDefault channelId) v := by
  unfold initChannelHealth
  cases hget : mapGet t.channelHealth (makeKey source.orDefault channelId) <;>
    simp [hget, mapSet_mapSet]

/-! ## Each operation as an update of one record -/

theorem recordFailure_eq (cfg : HealthConfig) (t : Tracker) (channelId : String)
    (source : Source) (now : Int) :
    recordFailure cfg t channelId source now =
      { tracker :=
          { t with channelHealth := (mapSet t.channelHealth (makeKey source.orDefault channelId)
              ((recordOf cfg t channelId source).afterFailure cfg now)) }
        frozenCalls :=
          if (recordOf cfg t channelId source).freezesOnFailure cfg then
            frozenCallsOf t source.orDefault.orClaude channelId
          else []
        thrown :=
          if (recordOf cfg t channelId source).freezesOnFailure cfg then
            thrownOf t source.orDefault.orClaude channelId
          else none } := by
  have h1 := initChannelHealth_snd cfg t channelId source.orDefault
  have h2 := initChannelHealth_callback cfg t channelId source.orDefault
  have h3 := initChannelHealth_mapSet cfg t channelId source.orDefault
  rw [Source.orDefault_idem] at h3
  rw [recordOf_orDefault] at h1
  unfold recordFailure
  simp only [h1, h2, h3]
  unfold Health.afterFailure Health.freezesOnFailure frozenCallsOf thrownOf
  by_cases hs : (recordOf cfg t channelId source).status = .healthy ∨
      (recordOf cfg t channelId source).status = .checking
  · by_cases hc : (recordOf cfg t channelId source).consecutiveFailures + 1 ≥ cfg.failureThreshold
    · simp only [hs, hc, if_true, and_self]
      rcases hcb : t.onChannelFrozenCallback with _ | cb
      · simp
      · rcases hr : cb source.orDefault.orClaude channelId with e | u
        · simp [hr]
        · simp [hr]
    · simp [hs, hc]
  · simp [hs]

theorem recordSuccess_eq (cfg : HealthConfig) (t : Tracker) (channelId : String)
    (source : Source) (now : Int) :
    recordSuccess cfg t channelId source now =
      { t with channelHealth := (mapSet t.channelHealth (makeKey source.orDefault channelId)
          ((recordOf cfg t channelId source).afterSuccess cfg now)) } := by
  have h1 := initChannelHealth_snd cfg t channelId source.orDefault
  have h2 := initChannelHealth_callback cfg t channelId source.orDefault
  have h3 := initChannelHealth_mapSet cfg t channelId source.orDefault
  rw [Source.orDefault_idem] at h3
  rw [recordOf_orDefault] at h1
  unfold recordSuccess
  simp only [h1, h2, h3]
  unfold Health.afterSuccess Health.recoversOnSuccess
  by_cases hs : (recordOf cfg t channelId source).status = .checking
  · by_cases hc : (recordOf cfg t channelId source).consecutiveSuccesses + 1 ≥
        cfg.healthCheckWindow
    · simp [hs, hc]
    · simp [hs, hc]
  · simp [hs]

theorem resetChannelHealth_eq (cfg : HealthConfig) (t : Tracker) (channelId : String)
    (source : Source) :
    resetChannelHealth cfg t channelId source =
      { t with channelHealth := (mapSet t.channelHealth (makeKey source.orDefault channelId)
          ((recordOf cfg t channelId source).afterReset cfg)) } := by
  have h1 := initChannelHealth_snd cfg t channelId source.orDefault
  have h2 := initChannelHealth_callback cfg t channelId source.orDefault
  have h3 := initChannelHealth_mapSet cfg t channelId source.orDefault
  rw [Source.orDefault_idem] at h3
  rw [recordOf_orDefault] at h1
  unfold resetChannelHealth
  simp only [h1, h2, h3]
  rfl

theorem isChannelAvailable_of_none (t : Tracker) (channelId : String) (source : Source)
    (now : Int) (hget : mapGet t.channelHealth (makeKey source.orDefault channelId) = none) :
    isChannelAvailable t channelId source now = (true, t) := by
  simp [isChannelAvailable, hget]

theorem isChannelAvailable_of_some (t : Tracker) (channelId : String) (source : Source)
    (now : Int) (h : Health)
    (hget : mapGet t.channelHealth (makeKey source.orDefault channelId) = some h) :
    isChannelAvailable t channelId source now =
      if h.status = .frozen then
        if now ≥ h.freezeUntil then
          (true, { t with channelHealth :=
            (mapSet t.channelHealth (makeKey source.orDefault channelId) h.afterExpiry) })
        else (false, t)
      else (true, t) := by
  unfold isChannelAvailable Health.afterExpiry
  simp only [hget]
  cases hs : h.status <;> simp

theorem recordOf_recordFailure (cfg : HealthConfig) (t : Tracker) (channelId : String)
    (source : Source) (now : Int) :
    recordOf cfg (recordFailure cfg t channelId source now).tracker channelId source =
      (recordOf cfg t channelId source).afterFailure cfg now := by
  rw [recordFailure_eq]
  exact recordOf_mapSet cfg t channelId source _

theorem recordOf_recordSuccess (cfg : HealthConfig) (t : Tracker) (channelId : String)
    (source : Source) (now : Int) :
    recordOf cfg (recordSuccess cfg t channelId source now) channelId source =
      (recordOf cfg t channelId source).afterSuccess cfg now := by
  rw [recordSuccess_eq]
  exact recordOf_mapSet cfg t channelId source _

theorem recordOf_resetChannelHealth (cfg : HealthConfig) (t : Tracker) (channelId : String)
    (source : Source) :
    recordOf cfg (resetChannelHealth cfg t channelId source) channelId source =
      (recordOf cfg t channelId source).afterReset cfg := by
  rw [resetChannelHealth_eq]
  exact recordOf_mapSet cfg t channelId source _

theorem recordFailure_callback (cfg : HealthConfig) (t : Tracker) (channelId : String)
    (source : Source) (now : Int) :
    (recordFailure cfg t channelId source now).tracker.onChannelFrozenCallback =
      t.onChannelFrozenCallback := by
  rw [recordFailure_eq]

/-! ## Runs of failures and of successes -/

theorem Source.orDefault_orClaude (s : Source) : s.orDefault.orClaude = s.orClaude := by
  cases s <;> rfl

theorem recordFailures_nil (cfg : HealthConfig) (t : Tracker) (channelId : String)
    (source : Source) : recordFailures cfg t channelId source [] = (t, []) := rfl

theorem recordFailures_take_succ (cfg : HealthConfig) (t : Tracker) (channelId : String)
    (source : Source) (times : List Int) (k : Nat) (now : Int) (hnow : times[k]? = some now) :
    recordFailures cfg t channelId source (times.take (k + 1)) =
      ((recordFailure cfg (recordFailures cfg t channelId source (times.take k)).1
          channelId source now).tracker,
        (recordFailures cfg t channelId source (times.take k)).2 ++
          (recordFailure cfg (recordFailures cfg t channelId source (times.take k)).1
            channelId source now).frozenCalls) := by
  unfold recordFailures
  rw [List.take_succ, hnow, List.foldl_append]
  rfl

theorem recordSuccesses_take_succ (cfg : HealthConfig) (t : Tracker) (channelId : String)
    (source : Source) (times : List Int) (k : Nat) (now : Int) (hnow : times[k]? = some now) :
    recordSuccesses cfg t channelId source (times.take (k + 1)) =
      recordSuccess cfg (recordSuccesses cfg t channelId source (times.take k))
        channelId source now := by
  unfold recordSuccesses
  rw [List.take_succ, hnow, List.foldl_append]
  rfl

theorem failures_run_invariant (cfg : HealthConfig) (hthr : 1 ≤ cfg.failureThreshold)
    (t : Tracker) (callback : FrozenCallback) (hcb : t.onChannelFrozenCallback = some callback)
    (channelId : String) (source : Source)
    (hstatus : (recordOf cfg t channelId source).status = .healthy)
    (hcount : (recordOf cfg t channelId source).consecutiveFailures = 0)
    (times : List Int) (k : Nat) (hk : k ≤ times.length) :
    (recordFailures cfg t channelId source (times.take k)).1.onChannelFrozenCallback =
        some callback ∧
      (k < cfg.failureThreshold →
        (recordOf cfg (recordFailures cfg t channelId source (times.take k)).1
            channelId source).status = .healthy ∧
          (recordOf cfg (recordFailures cfg t channelId source (times.take k)).1
            channelId source).consecutiveFailures = k ∧
          (recordOf cfg (recordFailures cfg t channelId source (times.take k)).1
            channelId source).nextFreezeTime = (recordOf cfg t channelId source).nextFreezeTime ∧
          (recordFailures cfg t channelId source (times.take k)).2 = []) ∧
      (cfg.failureThreshold ≤ k →
        (recordOf cfg (recordFailures cfg t channelId source (times.take k)).1
            channelId source).status = .frozen ∧
          (recordFailures cfg t channelId source (times.take k)).2 =
            [(source.orClaude, channelId)] ∧
          times[cfg.failureThreshold - 1]? =
            some ((recordOf cfg (recordFailures cfg t channelId source (times.take k)).1
              channelId source).freezeUntil - (recordOf cfg t channelId source).nextFreezeTime)) := by
  induction k with
  | zero =>
    simp only [List.take_zero, recordFailures_nil]
    refine ⟨hcb, fun _ => ⟨hstatus, hcount, trivial, trivial⟩, fun h => ?_⟩
    omega
  | succ k ih =>
    have hlt : k < times.length := hk
    obtain ⟨ihcb, ihlow, ihhigh⟩ := ih (Nat.le_of_lt hlt)
    have hnow : times[k]? = some times[k] := List.getElem?_eq_getElem hlt
    rw [recordFailures_take_succ cfg t channelId source times k _ hnow]
    simp only [recordOf_recordFailure, recordFailure_callback]
    refine ⟨ihcb, fun hlow => ?_, fun hhigh => ?_⟩
    · obtain ⟨hs, hc, hn, hcalls⟩ := ihlow (by omega)
      have hnot : ¬ (recordOf cfg (recordFailures cfg t channelId source (times.take k)).1
          channelId source).freezesOnFailure cfg := by
        unfold Health.freezesOnFailure
        rw [hc]
        omega
      rw [recordFailure_eq]
      simp only [Health.afterFailure, hnot, if_false, hcalls, List.append_nil]
      exact ⟨hs, by rw [hc], hn, trivial⟩
    · by_cases hprev : k < cfg.failureThreshold
      · obtain ⟨hs, hc, hn, hcalls⟩ := ihlow hprev
        have hfr : (recordOf cfg (recordFailures cfg t channelId source (times.take k)).1
            channelId source).freezesOnFailure cfg := by
          unfold Health.freezesOnFailure
          rw [hc]
          exact ⟨Or.inl hs, by omega⟩
        have hidx : cfg.failureThreshold - 1 = k := by omega
        rw [recordFailure_eq]
        simp only [Health.afterFailure, hfr, if_true, hcalls, List.nil_append, frozenCallsOf,
          ihcb, Source.orDefault_orClaude, hidx, hnow, hn]
        refine ⟨trivial, trivial, ?_⟩
        congr 1
        ring
      · obtain ⟨hs, hcalls, hfu⟩ := ihhigh (by omega)
        have hnot : ¬ (recordOf cfg (recordFailures cfg t channelId source (times.take k)).1
            channelId source).freezesOnFailure cfg := by
          unfold Health.freezesOnFailure
          rw [hs]
          simp
        rw [recordFailure_eq]
        simp only [Health.afterFailure, hnot, if_false, hcalls, List.append_nil]
        exact ⟨hs, trivial, hfu⟩

/-! ## Claims about the health state machine -/

/-- C1: for a channel whose record is absent, or healthy with no consecutive failure, and a run
of `recordFailure` calls with a callback registered and a threshold of at least one: after each
of the first `failureThreshold - 1` calls the status is still healthy and no callback call has
been made; from the `failureThreshold`-th call on the status is frozen, the callback has been
called exactly once in the whole run, with `(source || 'claude', channelId)`, and `freezeUntil`
is the time of the `failureThreshold`-th call plus the `nextFreezeTime` held before the run,
which is `initialFreezeTime` for an absent record. -/
theorem recordFailure_threshold_freezes_once (cfg : HealthConfig)
    (hthr : 1 ≤ cfg.failureThreshold) (t : Tracker) (callback : FrozenCallback)
    (hcb : t.onChannelFrozenCallback = some callback) (channelId : String) (source : Source)
    (hstart : ∀ h, mapGet t.channelHealth (makeKey source.orDefault channelId) = some h →
      h.status = .healthy ∧ h.consecutiveFailures = 0)
    (times : List Int) (k : Nat) (hk : k ≤ times.length) :
    (k < cfg.failureThreshold →
        (recordOf cfg (recordFailures cfg t channelId source (times.take k)).1
            channelId source).status = .healthy ∧
          (recordFailures cfg t channelId source (times.take k)).2 = []) ∧
      (cfg.failureThreshold ≤ k →
        (recordOf cfg (recordFailures cfg t channelId source (times.take k)).1
            channelId source).status = .frozen ∧
          (recordFailures cfg t channelId source (times.take k)).2 =
            [(source.orClaude, channelId)] ∧
          times[cfg.failureThreshold - 1]? =
            some ((recordOf cfg (recordFailures cfg t channelId source (times.take k)).1
              channelId source).freezeUntil - (recordOf cfg t channelId source).nextFreezeTime)) ∧
      (mapGet t.channelHealth (makeKey source.orDefault channelId) = none →
        (recordOf cfg t channelId source).nextFreezeTime = cfg.initialFreezeTime) := by
  have hinit : (recordOf cfg t channelId source).status = .healthy ∧
      (recordOf cfg t channelId source).consecutiveFailures = 0 := by
    cases hget : mapGet t.channelHealth (makeKey source.orDefault channelId) with
    | none => rw [recordOf_of_none cfg t channelId source hget]; exact ⟨rfl, rfl⟩
    | some h => rw [recordOf_of_some cfg t channelId source h hget]; exact hstart h hget
  obtain ⟨_, hlow, hhigh⟩ := failures_run_invariant cfg hthr t callback hcb channelId source
    hinit.1 hinit.2 times k hk
  refine ⟨fun h => ⟨(hlow h).1, (hlow h).2.2.2⟩, hhigh, fun hnone => ?_⟩
  rw [recordOf_of_none cfg t channelId source hnone]
  rfl

/-- Witness for C1: the scenario of the specification, channel `C1` with the default
threshold 3, failures at times 10, 20, 30 and 40. After all four calls the channel is frozen
until 30 + 60000 and the callback was called once, with `("claude", "C1")`. -/
theorem recordFailure_threshold_freezes_once_witness :
    (recordOf healthConfig
        (recordFailures healthConfig (setOnChannelFrozen emptyTracker (some fun _ _ => .ok ()))
          "C1" .omitted ([10, 20, 30, 40].take 4)).1 "C1" .omitted).status = .frozen ∧
      (recordFailures healthConfig (setOnChannelFrozen emptyTracker (some fun _ _ => .ok ()))
          "C1" .omitted ([10, 20, 30, 40].take 4)).2 = [("claude", "C1")] ∧
      ([10, 20, 30, 40] : List Int)[healthConfig.failureThreshold - 1]? =
        some ((recordOf healthConfig
          (recordFailures healthConfig (setOnChannelFrozen emptyTracker (some fun _ _ => .ok ()))
            "C1" .omitted ([10, 20, 30, 40].take 4)).1 "C1" .omitted).freezeUntil -
          (recordOf healthConfig (setOnChannelFrozen emptyTracker (some fun _ _ => .ok ()))
            "C1" .omitted).nextFreezeTime) :=
  (recordFailure_threshold_freezes_once healthConfig (by decide)
    (setOnChannelFrozen emptyTracker (some fun _ _ => .ok ())) (fun _ _ => .ok ()) rfl
    "C1" .omitted (fun h hget => by simp [setOnChannelFrozen, emptyTracker, mapGet] at hget)
    [10, 20, 30, 40] 4 (by decide)).2.1 (by decide)

/-- C2: on a record whose status is frozen, `recordFailure` and `recordSuccess`, at any time,
only change the consecutive and total counters and `lastCheckTime`: status, `freezeUntil`,
`nextFreezeTime` and every other record stay as they were, the callback is not called and
nothing is thrown. -/
theorem frozen_record_keeps_clock (cfg : HealthConfig) (t : Tracker) (channelId : String)
    (source : Source) (h : Health) (now : Int)
    (hget : mapGet t.channelHealth (makeKey source.orDefault channelId) = some h)
    (hfrozen : h.status = .frozen) :
    recordFailure cfg t channelId source now =
        { tracker :=
            { t with channelHealth :=
                (mapSet t.channelHealth (makeKey source.orDefault channelId)
                  { h with
                    totalFailures := h.totalFailures + 1
                    consecutiveFailures := h.consecutiveFailures + 1
                    consecutiveSuccesses := 0
                    lastCheckTime := some now }) }
          frozenCalls := []
          thrown := none } ∧
      recordSuccess cfg t channelId source now =
        { t with channelHealth :=
            (mapSet t.channelHealth (makeKey source.orDefault channelId)
              { h with
                totalSuccesses := h.totalSuccesses + 1
                consecutiveSuccesses := h.consecutiveSuccesses + 1
                consecutiveFailures := 0
                lastCheckTime := some now }) } := by
  have hrec := recordOf_of_some cfg t channelId source h hget
  constructor
  · rw [recordFailure_eq, hrec]
    simp [Health.afterFailure, Health.freezesOnFailure, hfrozen]
  · rw [recordSuccess_eq, hrec]
    simp [Health.afterSuccess, Health.recoversOnSuccess, hfrozen]

/-- Witness for C2: channel `C1` frozen by three failures, then a fourth failure at time 40. -/
theorem frozen_record_keeps_clock_witness :
    (recordOf healthConfig
        (recordFailure healthConfig
          (recordFailures healthConfig emptyTracker "C1" .omitted [10, 20, 30]).1
          "C1" .omitted 40).tracker "C1" .omitted).freezeUntil = 60030 := by
  rw [(frozen_record_keeps_clock healthConfig
    (recordFailures healthConfig emptyTracker "C1" .omitted [10, 20, 30]).1 "C1" .omitted
    ⟨.frozen, 3, 0, 3, 0, 60030, 120000, some 30, .str "claude"⟩ 40 (by decide) rfl).1]
  decide

/-- C3: `isChannelAvailable` on a stored record. Frozen and `now < freezeUntil`: the answer is
false and the state is unchanged. Frozen and `now ≥ freezeUntil`: the answer is true, the status
becomes checking, `consecutiveSuccesses` becomes 0 and nothing else changes. Healthy or
checking: the answer is true and the state is unchanged. -/
theorem isChannelAvailable_spec (t : Tracker) (channelId : String) (source : Source)
    (h : Health) (now : Int)
    (hget : mapGet t.channelHealth (makeKey source.orDefault channelId) = some h) :
    (h.status = .frozen → now < h.freezeUntil →
        isChannelAvailable t channelId source now = (false, t)) ∧
      (h.status = .frozen → now ≥ h.freezeUntil →
        isChannelAvailable t channelId source now =
          (true, { t with channelHealth :=
            (mapSet t.channelHealth (makeKey source.orDefault channelId)
              { h with status := .checking, consecutiveSuccesses := 0 }) })) ∧
      (h.status = .healthy ∨ h.status = .checking →
        isChannelAvailable t channelId source now = (true, t)) := by
  rw [isChannelAvailable_of_some t channelId source now h hget]
  refine ⟨fun hs hlt => ?_, fun hs hge => ?_, fun hs => ?_⟩
  · rw [if_pos hs, if_neg (not_le.mpr hlt)]
  · rw [if_pos hs, if_pos hge]
    rfl
  · have hne : h.status ≠ .frozen := by
      rcases hs with hs | hs <;> rw [hs] <;> decide
    rw [if_neg hne]

/-- Witness for C3: channel `C1` frozen until 60030 is refused at time 60029. -/
theorem isChannelAvailable_spec_witness :
    (isChannelAvailable (recordFailures healthConfig emptyTracker "C1" .omitted [10, 20, 30]).1
        "C1" .omitted 60029).1 = false := by
  rw [(isChannelAvailable_spec
    (recordFailures healthConfig emptyTracker "C1" .omitted [10, 20, 30]).1 "C1" .omitted
    ⟨.frozen, 3, 0, 3, 0, 60030, 120000, some 30, .str "claude"⟩ 60029 (by decide)).1
    rfl (by decide)]

/-! ## Probing and recovery -/

theorem successes_run_invariant (cfg : HealthConfig) (hwin : 1 ≤ cfg.healthCheckWindow)
    (t : Tracker) (channelId : String) (source : Source)
    (hstatus : (recordOf cfg t channelId source).status = .checking)
    (hcount : (recordOf cfg t channelId source).consecutiveSuccesses = 0)
    (times : List Int) (k : Nat) (hk : k ≤ times.length) :
    (k < cfg.healthCheckWindow →
        (recordOf cfg (recordSuccesses cfg t channelId source (times.take k))
            channelId source).status = .checking ∧
          (recordOf cfg (recordSuccesses cfg t channelId source (times.take k))
            channelId source).consecutiveSuccesses = k) ∧
      (cfg.healthCheckWindow ≤ k →
        (recordOf cfg (recordSuccesses cfg t channelId source (times.take k))
            channelId source).status = .healthy ∧
          (recordOf cfg (recordSuccesses cfg t channelId source (times.take k))
            channelId source).nextFreezeTime = cfg.initialFreezeTime) := by
  induction k with
  | zero =>
    simp only [List.take_zero]
    refine ⟨fun _ => ⟨hstatus, hcount⟩, fun h => ?_⟩
    omega
  | succ k ih =>
    have hlt : k < times.length := hk
    obtain ⟨ihlow, ihhigh⟩ := ih (Nat.le_of_lt hlt)
    have hnow : times[k]? = some times[k] := List.getElem?_eq_getElem hlt
    rw [recordSuccesses_take_succ cfg t channelId source times k _ hnow]
    simp only [recordOf_recordSuccess]
    refine ⟨fun hlow => ?_, fun hhigh => ?_⟩
    · obtain ⟨hs, hc⟩ := ihlow (by omega)
      have hnot : ¬ (recordOf cfg (recordSuccesses cfg t channelId source (times.take k))
          channelId source).recoversOnSuccess cfg := by
        unfold Health.recoversOnSuccess
        rw [hc]
        omega
      simp only [Health.afterSuccess, hnot, if_false]
      exact ⟨hs, by rw [hc]⟩
    · by_cases hprev : k < cfg.healthCheckWindow
      · obtain ⟨hs, hc⟩ := ihlow hprev
        have hrec : (recordOf cfg (recordSuccesses cfg t channelId source (times.take k))
            channelId source).recoversOnSuccess cfg := by
          unfold Health.recoversOnSuccess
          rw [hc]
          exact ⟨hs, by omega⟩
        simp only [Health.afterSuccess, hrec, if_true]
        exact ⟨trivial, trivial⟩
      · obtain ⟨hs, hn⟩ := ihhigh (by omega)
        have hnot : ¬ (recordOf cfg (recordSuccesses cfg t channelId source (times.take k))
            channelId source).recoversOnSuccess cfg := by
          unfold Health.recoversOnSuccess
          rw [hs]
          simp
        simp only [Health.afterSuccess, hnot, if_false]
        exact ⟨hs, hn⟩

/-- C4: a frozen record is moved to checking by `isChannelAvailable` at a time `now ≥ freezeUntil`
and then receives a run of `recordSuccess` calls (probe window of at least one). Whatever
`consecutiveSuccesses` was while frozen, after `k` successes with `k < healthCheckWindow` the
status is still checking and the count is `k`; from the `healthCheckWindow`-th success on the
status is healthy and `nextFreezeTime` is `initialFreezeTime`. -/
theorem probing_recovers_at_window (cfg : HealthConfig) (hwin : 1 ≤ cfg.healthCheckWindow)
    (t : Tracker) (channelId : String) (source : Source) (h : Health) (now : Int)
    (hget : mapGet t.channelHealth (makeKey source.orDefault channelId) = some h)
    (hfrozen : h.status = .frozen) (hexpired : now ≥ h.freezeUntil)
    (times : List Int) (k : Nat) (hk : k ≤ times.length) :
    (isChannelAvailable t channelId source now).1 = true ∧
      (k < cfg.healthCheckWindow →
        (recordOf cfg
            (recordSuccesses cfg (isChannelAvailable t channelId source now).2 channelId source
              (times.take k)) channelId source).status = .checking ∧
          (recordOf cfg
            (recordSuccesses cfg (isChannelAvailable t channelId source now).2 channelId source
              (times.take k)) channelId source).consecutiveSuccesses = k) ∧
      (cfg.healthCheckWindow ≤ k →
        (recordOf cfg
            (recordSuccesses cfg (isChannelAvailable t channelId source now).2 channelId source
              (times.take k)) channelId source).status = .healthy ∧
          (recordOf cfg
            (recordSuccesses cfg (isChannelAvailable t channelId source now).2 channelId source
              (times.take k)) channelId source).nextFreezeTime = cfg.initialFreezeTime) := by
  rw [isChannelAvailable_of_some t channelId source now h hget, if_pos hfrozen, if_pos hexpired]
  refine ⟨rfl, ?_⟩
  have hrec := recordOf_mapSet cfg t channelId source h.afterExpiry
  exact successes_run_invariant cfg hwin _ channelId source (by rw [hrec]; rfl)
    (by rw [hrec]; rfl) times k hk

/-- Witness for C4: channel `C1` frozen until 60030 with one success recorded while frozen,
checked at time 60030, then five successes: the status is healthy and the next freeze
duration is back at 60000. -/
theorem probing_recovers_at_window_witness :
    (recordOf healthConfig
        (recordSuccesses healthConfig
          (isChannelAvailable
            (recordSuccess healthConfig
              (recordFailures healthConfig emptyTracker "C1" .omitted [10, 20, 30]).1
              "C1" .omitted 40)
            "C1" .omitted 60030).2 "C1" .omitted
          ([60031, 60032, 60033, 60034, 60035].take 5)) "C1" .omitted).status = .healthy ∧
      (recordOf healthConfig
        (recordSuccesses healthConfig
          (isChannelAvailable
            (recordSuccess healthConfig
              (recordFailures healthConfig emptyTracker "C1" .omitted [10, 20, 30]).1
              "C1" .omitted 40)
            "C1" .omitted 60030).2 "C1" .omitted
          ([60031, 60032, 60033, 60034, 60035].take 5)) "C1" .omitted).nextFreezeTime =
        60000 :=
  (probing_recovers_at_window healthConfig (by decide)
    (recordSuccess healthConfig
      (recordFailures healthConfig emptyTracker "C1" .omitted [10, 20, 30]).1 "C1" .omitted 40)
    "C1" .omitted ⟨.frozen, 0, 1, 3, 1, 60030, 120000, some 40, .str "claude"⟩ 60030
    (by decide) rfl (by decide) [60031, 60032, 60033, 60034, 60035] 5 (by decide)).2.2
    (by decide)

/-! ## Reachable states -/

theorem reachable_runOps (cfg : HealthConfig) (ops : List Op) (t : Tracker)
    (hreach : Reachable cfg t) : Reachable cfg (runOps cfg t ops) := by
  induction ops generalizing t with
  | nil => exact hreach
  | cons op rest ih => exact ih _ (Reachable.step t op hreach)

theorem mapGet_mapSet_forall (P : Health → Prop) (m : List (String × Health)) (k : String)
    (v : Health) (hv : P v) (hm : ∀ key h, mapGet m key = some h → P h) :
    ∀ key h, mapGet (mapSet m k v) key = some h → P h := by
  intro key h hget
  by_cases hk : k = key
  · subst hk
    rw [mapGet_mapSet_self] at hget
    cases hget
    exact hv
  · rw [mapGet_mapSet_ne m k key v hk] at hget
    exact hm key h hget

theorem recordOf_forall (P : Health → Prop) (cfg : HealthConfig) (t : Tracker)
    (channelId : String) (source : Source) (hfresh : ∀ s, P (freshHealth cfg s))
    (hm : ∀ key h, mapGet t.channelHealth key = some h → P h) :
    P (recordOf cfg t channelId source) := by
  cases hget : mapGet t.channelHealth (makeKey source.orDefault channelId) with
  | none => rw [recordOf_of_none cfg t channelId source hget]; exact hfresh _
  | some h => rw [recordOf_of_some cfg t channelId source h hget]; exact hm _ h hget

theorem nextDuration_ge (cfg : HealthConfig) (h0 : 0 ≤ cfg.initialFreezeTime)
    (hm : 1 ≤ cfg.freezeMultiplier)
    (d : Int) (hd : cfg.initialFreezeTime ≤ d) : d ⊓ cfg.maxFreezeTime ≤ nextDuration cfg d := by
  unfold nextDuration
  have hmul : d ≤ d * cfg.freezeMultiplier := by nlinarith
  exact min_le_min hmul le_rfl

theorem backoffOk_fresh (cfg : HealthConfig) (s : Source) : (freshHealth cfg s).backoffOk cfg :=
  ⟨le_rfl, fun hne => absurd rfl hne⟩

theorem backoffOk_afterFailure (cfg : HealthConfig) (h0 : 0 ≤ cfg.initialFreezeTime)
    (h1 : cfg.initialFreezeTime ≤ cfg.maxFreezeTime) (hm : 1 ≤ cfg.freezeMultiplier)
    (h : Health) (now : Int) (hok : h.backoffOk cfg) : (h.afterFailure cfg now).backoffOk cfg := by
  unfold Health.afterFailure
  split_ifs with hfr
  · refine ⟨?_, fun _ => ⟨h.nextFreezeTime, hok.1, rfl⟩⟩
    exact le_trans (le_min hok.1 h1) (nextDuration_ge cfg h0 hm _ hok.1)
  · exact ⟨hok.1, hok.2⟩

theorem backoffOk_afterSuccess (cfg : HealthConfig) (h : Health) (now : Int)
    (hok : h.backoffOk cfg) : (h.afterSuccess cfg now).backoffOk cfg := by
  unfold Health.afterSuccess
  split_ifs with hrec
  · exact ⟨le_rfl, fun hne => absurd rfl hne⟩
  · exact ⟨hok.1, hok.2⟩

theorem backoffOk_afterExpiry (cfg : HealthConfig) (h : Health) (hfrozen : h.status = .frozen)
    (hok : h.backoffOk cfg) : h.afterExpiry.backoffOk cfg :=
  ⟨hok.1, fun _ => hok.2 (by rw [hfrozen]; decide)⟩

theorem backoffOk_afterReset (cfg : HealthConfig) (h : Health) : (h.afterReset cfg).backoffOk cfg :=
  ⟨le_rfl, fun hne => absurd rfl hne⟩

theorem reachable_backoffOk (cfg : HealthConfig) (h0 : 0 ≤ cfg.initialFreezeTime)
    (h1 : cfg.initialFreezeTime ≤ cfg.maxFreezeTime) (hm : 1 ≤ cfg.freezeMultiplier)
    (t : Tracker) (hreach : Reachable cfg t) :
    ∀ key h, mapGet t.channelHealth key = some h → h.backoffOk cfg := by
  induction hreach with
  | empty =>
    intro key h hget
    simp [emptyTracker, mapGet] at hget
  | step t op _ ih =>
    have hrec : ∀ channelId source, (recordOf cfg t channelId source).backoffOk cfg :=
      fun channelId source =>
        recordOf_forall (fun h => h.backoffOk cfg) cfg t channelId source
          (backoffOk_fresh cfg) ih
    cases op with
    | recordSuccess channelId source now =>
      simp only [applyOp, recordSuccess_eq]
      exact mapGet_mapSet_forall _ _ _ _
        (backoffOk_afterSuccess cfg _ now (hrec channelId source)) ih
    | recordFailure channelId source now =>
      simp only [applyOp, recordFailure_eq]
      exact mapGet_mapSet_forall _ _ _ _
        (backoffOk_afterFailure cfg h0 h1 hm _ now (hrec channelId source)) ih
    | isChannelAvailable channelId source now =>
      simp only [applyOp]
      cases hget : mapGet t.channelHealth (makeKey source.orDefault channelId) with
      | none => rw [isChannelAvailable_of_none t channelId source now hget]; exact ih
      | some h =>
        rw [isChannelAvailable_of_some t channelId source now h hget]
        split_ifs with hs hge
        · exact mapGet_mapSet_forall _ _ _ _
            (backoffOk_afterExpiry cfg h hs (ih _ h hget)) ih
        · exact ih
        · exact ih
    | getChannelHealthStatus channelId source now => exact ih
    | resetChannelHealth channelId source =>
      simp only [applyOp, resetChannelHealth_eq]
      exact mapGet_mapSet_forall _ _ _ _ (backoffOk_afterReset cfg _) ih
    | setOnChannelFrozen callback => exact ih

/-- C5, as the code has it: for a reachable record whose status is checking (configuration with
`0 < initialFreezeTime < maxFreezeTime` and a multiplier of at least 2), `recordFailure` at time
`now` freezes the record exactly when the incremented `consecutiveFailures` reaches
`failureThreshold`. Then `freezeUntil = now + d` where `d` is the stored `nextFreezeTime`,
which a previous freeze left as `min (p * freezeMultiplier) maxFreezeTime` and which is larger
than `initialFreezeTime`, and a registered callback is called once. Below the threshold the
record stays checking and the callback is not called. -/
theorem probing_failure_freezes_at_threshold (cfg : HealthConfig)
    (h0 : 0 < cfg.initialFreezeTime) (h1 : cfg.initialFreezeTime < cfg.maxFreezeTime)
    (hm : 2 ≤ cfg.freezeMultiplier) (t : Tracker) (hreach : Reachable cfg t)
    (channelId : String) (source : Source) (h : Health) (now : Int)
    (hget : mapGet t.channelHealth (makeKey source.orDefault channelId) = some h)
    (hchecking : h.status = .checking) :
    (cfg.failureThreshold ≤ h.consecutiveFailures + 1 →
        (recordOf cfg (recordFailure cfg t channelId source now).tracker
            channelId source).status = .frozen ∧
          (recordOf cfg (recordFailure cfg t channelId source now).tracker
            channelId source).freezeUntil = now + h.nextFreezeTime ∧
          cfg.initialFreezeTime < h.nextFreezeTime ∧
          (∃ p, cfg.initialFreezeTime ≤ p ∧
            h.nextFreezeTime = min (p * cfg.freezeMultiplier) cfg.maxFreezeTime) ∧
          (∀ callback, t.onChannelFrozenCallback = some callback →
            (recordFailure cfg t channelId source now).frozenCalls =
              [(source.orClaude, channelId)])) ∧
      (h.consecutiveFailures + 1 < cfg.failureThreshold →
        (recordOf cfg (recordFailure cfg t channelId source now).tracker
            channelId source).status = .checking ∧
          (recordFailure cfg t channelId source now).frozenCalls = []) := by
  have hrec := recordOf_of_some cfg t channelId source h hget
  have hok := reachable_backoffOk cfg (le_of_lt h0) (le_of_lt h1) (by omega) t hreach _ h hget
  obtain ⟨p, hp, hnext⟩ := hok.2 (by rw [hchecking]; decide)
  rw [recordOf_recordFailure, recordFailure_eq, hrec]
  refine ⟨fun hthr => ?_, fun hthr => ?_⟩
  · have hfr : h.freezesOnFailure cfg := ⟨Or.inr hchecking, hthr⟩
    simp only [Health.afterFailure, hfr, if_true]
    refine ⟨trivial, trivial, ?_, ⟨p, hp, hnext⟩, fun callback hcb => ?_⟩
    · rw [hnext]
      unfold nextDuration
      have hmul : cfg.initialFreezeTime < p * cfg.freezeMultiplier := by nlinarith
      exact lt_min hmul h1
    · simp [frozenCallsOf, hcb, Source.orDefault_orClaude]
  · have hnot : ¬ h.freezesOnFailure cfg := by
      unfold Health.freezesOnFailure
      omega
    simp only [Health.afterFailure, hnot, if_false]
    exact ⟨hchecking, trivial⟩

/-- Witness for C5: channel `C1` frozen by three failures and checked at its expiry time
60030 is probing with three consecutive failures on record; the failure at 60031 freezes it
again, until 60031 + 120000. -/
theorem probing_failure_freezes_at_threshold_witness :
    (recordOf healthConfig
      (recordFailure healthConfig
        (runOps healthConfig emptyTracker (probingScenario.take 5)) "C1" .omitted 60031).tracker
      "C1" .omitted).freezeUntil = 60031 + 120000 :=
  ((probing_failure_freezes_at_threshold healthConfig (by decide) (by decide) (by decide)
    (runOps healthConfig emptyTracker (probingScenario.take 5))
    (reachable_runOps healthConfig _ _ Reachable.empty) "C1" .omitted
    ⟨.checking, 3, 0, 3, 0, 60030, 120000, some 30, .str "claude"⟩ 60031 (by decide) rfl).1
    (by decide)).2.1

/-- Counterexample to C5 as stated: in the probing scenario the record of `C1` is reachable and
checking, with one success recorded since the freeze; the single failure at 60050 leaves it
checking, with `freezeUntil` still 60030, and the callback is not called. -/
theorem probing_single_failure_counterexample :
    Reachable healthConfig (runOps healthConfig emptyTracker probingScenario) ∧
      (recordOf healthConfig (runOps healthConfig emptyTracker probingScenario)
        "C1" .omitted).status = .checking ∧
      (recordOf healthConfig
        (recordFailure healthConfig (runOps healthConfig emptyTracker probingScenario)
          "C1" .omitted 60050).tracker "C1" .omitted).status = .checking ∧
      (recordOf healthConfig
        (recordFailure healthConfig (runOps healthConfig emptyTracker probingScenario)
          "C1" .omitted 60050).tracker "C1" .omitted).freezeUntil = 60030 ∧
      (recordFailure healthConfig (runOps healthConfig emptyTracker probingScenario)
        "C1" .omitted 60050).frozenCalls = [] :=
  ⟨reachable_runOps healthConfig _ _ Reachable.empty, by decide, by decide, by decide,
    by decide⟩

/-! ## The back-off schedule -/

theorem recordOf_isChannelAvailable_nextFreezeTime (cfg : HealthConfig) (t : Tracker)
    (channelId : String) (source : Source) (now : Int) :
    (recordOf cfg (isChannelAvailable t channelId source now).2 channelId source).nextFreezeTime =
      (recordOf cfg t channelId source).nextFreezeTime := by
  cases hget : mapGet t.channelHealth (makeKey source.orDefault channelId) with
  | none => rw [isChannelAvailable_of_none t channelId source now hget]
  | some h =>
    rw [isChannelAvailable_of_some t channelId source now h hget]
    split_ifs with hs hge
    · rw [recordOf_mapSet, recordOf_of_some cfg t channelId source h hget]
      rfl
    · rfl
    · rfl

theorem freezeDurations_channelEvents (cfg : HealthConfig) (channelId : String)
    (source : Source) (calls : List ChannelCall) (t : Tracker)
    (hrecovered : Event.recovered ∉ channelEvents cfg t channelId source calls)
    (hreset : Event.reset ∉ channelEvents cfg t channelId source calls) :
    freezeDurations (channelEvents cfg t channelId source calls) =
      schedule cfg (recordOf cfg t channelId source).nextFreezeTime
        (freezeDurations (channelEvents cfg t channelId source calls)).length := by
  induction calls generalizing t with
  | nil => rfl
  | cons call rest ih =>
    simp only [channelEvents, List.mem_cons, not_or] at hrecovered hreset
    obtain ⟨hrec1, hrec2⟩ := hrecovered
    obtain ⟨hres1, hres2⟩ := hreset
    have hrest := ih _ hrec2 hres2
    simp only [channelEvents]
    cases call with
    | success now =>
      simp only [channelStep, recordOf_recordSuccess] at hrec1 hrest ⊢
      by_cases hr : (recordOf cfg t channelId source).recoversOnSuccess cfg
      · exfalso
        apply hrec1
        simp [Health.afterSuccess, hr, hr.1]
      · have hev : ¬ ((recordOf cfg t channelId source).status = .checking ∧
            ((recordOf cfg t channelId source).afterSuccess cfg now).status = .healthy) := by
          rintro ⟨hs, hh⟩
          simp [Health.afterSuccess, hr, hs] at hh
        simp only [Health.afterSuccess, hr, if_false] at hrest
        simp only [hev, if_false, freezeDurations]
        exact hrest
    | failure now =>
      simp only [channelStep, recordOf_recordFailure] at hrest ⊢
      by_cases hf : (recordOf cfg t channelId source).freezesOnFailure cfg
      · have hev : (recordOf cfg t channelId source).status ≠ .frozen ∧
            ((recordOf cfg t channelId source).afterFailure cfg now).status = .frozen := by
          refine ⟨?_, by simp [Health.afterFailure, hf]⟩
          rcases hf.1 with hs | hs <;> rw [hs] <;> decide
        have hdur : ((recordOf cfg t channelId source).afterFailure cfg now).freezeUntil - now =
            (recordOf cfg t channelId source).nextFreezeTime := by
          simp [Health.afterFailure, hf]
        have hnext : ((recordOf cfg t channelId source).afterFailure cfg now).nextFreezeTime =
            nextDuration cfg (recordOf cfg t channelId source).nextFreezeTime := by
          simp [Health.afterFailure, hf, nextDuration]
        rw [hnext] at hrest
        rw [if_pos hev, hdur]
        simp only [freezeDurations, List.length_cons, schedule]
        rw [← hrest]
      · have hev : ¬ ((recordOf cfg t channelId source).status ≠ .frozen ∧
            ((recordOf cfg t channelId source).afterFailure cfg now).status = .frozen) := by
          rintro ⟨hs, hh⟩
          simp [Health.afterFailure, hf] at hh
          exact hs hh
        have hnext : ((recordOf cfg t channelId source).afterFailure cfg now).nextFreezeTime =
            (recordOf cfg t channelId source).nextFreezeTime := by
          simp [Health.afterFailure, hf]
        rw [hnext] at hrest
        rw [if_neg hev]
        simp only [freezeDurations]
        exact hrest
    | available now =>
      simp only [channelStep, recordOf_isChannelAvailable_nextFreezeTime] at hrest ⊢
      simp only [freezeDurations]
      exact hrest
    | status now =>
      simp only [channelStep] at hrest ⊢
      simp only [freezeDurations]
      exact hrest
    | reset =>
      exfalso
      apply hres1
      simp [channelStep]

theorem schedule_head (cfg : HealthConfig) (d : Int) (n : Nat) :
    ∀ x ∈ (schedule cfg d n).head?, x = d := by
  cases n with
  | zero => simp [schedule]
  | succ n => simp [schedule]

theorem schedule_chain (cfg : HealthConfig) (h0 : 0 ≤ cfg.initialFreezeTime)
    (hm : 1 ≤ cfg.freezeMultiplier) (d : Int) (hd0 : cfg.initialFreezeTime ≤ d)
    (hd1 : d ≤ cfg.maxFreezeTime) (n : Nat) :
    List.Chain' (fun a b => b = min (a * cfg.freezeMultiplier) cfg.maxFreezeTime ∧ a ≤ b)
        (schedule cfg d n) ∧
      ∀ x ∈ schedule cfg d n, x ≤ cfg.maxFreezeTime := by
  induction n generalizing d with
  | zero => simp [schedule]
  | succ n ih =>
    have hge := nextDuration_ge cfg h0 hm d hd0
    rw [min_eq_left hd1] at hge
    have hle : nextDuration cfg d ≤ cfg.maxFreezeTime := min_le_right _ _
    obtain ⟨hchain, hbound⟩ := ih (nextDuration cfg d) (le_trans hd0 hge) hle
    refine ⟨?_, ?_⟩
    · simp only [schedule]
      rw [List.chain'_cons']
      refine ⟨fun y hy => ?_, hchain⟩
      rw [schedule_head cfg _ n y hy]
      exact ⟨rfl, hge⟩
    · intro x hx
      simp only [schedule, List.mem_cons] at hx
      rcases hx with hx | hx
      · rw [hx]; exact hd1
      · exact hbound x hx

theorem schedule_default (i n : Nat) :
    schedule healthConfig (min (60000 * 2 ^ i) 1800000) n =
      (List.range n).map (fun j => min (60000 * 2 ^ (i + j)) 1800000) := by
  induction n generalizing i with
  | zero => rfl
  | succ n ih =>
    have hstep : nextDuration healthConfig (min (60000 * 2 ^ i) 1800000) =
        min (60000 * 2 ^ (i + 1)) 1800000 := by
      simp only [nextDuration, healthConfig, pow_succ]
      have hpos : (0 : Int) < 2 ^ i := by positivity
      omega
    rw [schedule, hstep, ih (i + 1), List.range_succ_eq_map, List.map_cons, List.map_map]
    congr 1
    apply List.map_congr_left
    intro j _
    simp only [Function.comp, Nat.succ_eq_add_one]
    rw [show i + 1 + j = i + (j + 1) by omega]

/-- C6: for a channel that starts without a record and any sequence of calls on it in which no
success takes the record from checking to healthy and no reset occurs (configuration with
`0 ≤ initialFreezeTime ≤ maxFreezeTime` and a multiplier of at least 1), the durations applied
by the successive freezes, `freezeUntil` minus the time of the freezing call, start at
`initialFreezeTime`; each later one is `min (previous * freezeMultiplier) maxFreezeTime` and is
at least the previous one; none exceeds `maxFreezeTime`. With the default configuration the
`i`-th duration is `min (60000 * 2 ^ i) 1800000`: 60000, 120000, 240000, 480000, 960000,
1800000, 1800000 and so on. -/
theorem freeze_durations_follow_schedule (cfg : HealthConfig)
    (h0 : 0 ≤ cfg.initialFreezeTime) (h1 : cfg.initialFreezeTime ≤ cfg.maxFreezeTime)
    (hm : 1 ≤ cfg.freezeMultiplier) (t : Tracker) (channelId : String) (source : Source)
    (hfresh : mapGet t.channelHealth (makeKey source.orDefault channelId) = none)
    (calls : List ChannelCall)
    (hrecovered : Event.recovered ∉ channelEvents cfg t channelId source calls)
    (hreset : Event.reset ∉ channelEvents cfg t channelId source calls) :
    (∀ d ∈ (freezeDurations (channelEvents cfg t channelId source calls)).head?,
        d = cfg.initialFreezeTime) ∧
      List.Chain' (fun a b => b = min (a * cfg.freezeMultiplier) cfg.maxFreezeTime ∧ a ≤ b)
        (freezeDurations (channelEvents cfg t channelId source calls)) ∧
      (∀ d ∈ freezeDurations (channelEvents cfg t channelId source calls),
        d ≤ cfg.maxFreezeTime) ∧
      (cfg = healthConfig →
        freezeDurations (channelEvents cfg t channelId source calls) =
          (List.range (freezeDurations (channelEvents cfg t channelId source calls)).length).map
            (fun i => min (60000 * 2 ^ i) 1800000)) := by
  have hsched := freezeDurations_channelEvents cfg channelId source calls t hrecovered hreset
  have hstart : (recordOf cfg t channelId source).nextFreezeTime = cfg.initialFreezeTime := by
    rw [recordOf_of_none cfg t channelId source hfresh]
    rfl
  rw [hstart] at hsched
  obtain ⟨hchain, hbound⟩ := schedule_chain cfg h0 hm cfg.initialFreezeTime le_rfl h1
    (freezeDurations (channelEvents cfg t channelId source calls)).length
  refine ⟨?_, ?_, ?_, fun hcfg => ?_⟩
  · rw [hsched]
    exact schedule_head cfg _ _
  · rw [hsched]
    exact hchain
  · rw [hsched]
    exact hbound
  · subst hcfg
    have hdef := schedule_default 0
      (freezeDurations (channelEvents healthConfig t channelId source calls)).length
    simp only [pow_zero, mul_one, zero_add] at hdef
    have hmin : min (60000 : Int) 1800000 = healthConfig.initialFreezeTime := by decide
    rw [hmin] at hdef
    rw [← hdef]
    exact hsched

/-- Witness for C6: channel `C1` fails three times, is checked after expiry, fails once more,
is checked after the second expiry and fails again: the three freezes last 60000, 120000 and
240000 ms. -/
theorem freeze_durations_follow_schedule_witness :
    freezeDurations (channelEvents healthConfig emptyTracker "C1" .omitted
        [.failure 10, .failure 20, .failure 30, .available 60030, .failure 60031,
          .available 180031, .success 180032, .status 180033, .failure 180034,
          .failure 180035, .failure 180036]) =
      (List.range (freezeDurations (channelEvents healthConfig emptyTracker "C1" .omitted
        [.failure 10, .failure 20, .failure 30, .available 60030, .failure 60031,
          .available 180031, .success 180032, .status 180033, .failure 180034,
          .failure 180035, .failure 180036])).length).map
        (fun i => min (60000 * 2 ^ i) 1800000) :=
  (freeze_durations_follow_schedule healthConfig (by decide) (by decide) (by decide)
    emptyTracker "C1" .omitted rfl
    [.failure 10, .failure 20, .failure 30, .available 60030, .failure 60031,
      .available 180031, .success 180032, .status 180033, .failure 180034,
      .failure 180035, .failure 180036] (by decide) (by decide)).2.2.2 rfl

/-! ## Reset and the freeze callback -/

/-- C7, as the code has it: whatever the prior state of the record (a fresh record standing
for an absent one), after `resetChannelHealth` the record is healthy, both consecutive counters
are 0, `freezeUntil` is 0 and `nextFreezeTime` is `initialFreezeTime`, while `totalFailures`,
`totalSuccesses`, `lastCheckTime` and `source` keep their prior values; `getChannelHealthStatus`
reports exactly that: healthy, consecutive counters 0, the prior totals, `freezeUntil` 0. -/
theorem resetChannelHealth_keeps_totals (cfg : HealthConfig) (t : Tracker) (channelId : String)
    (source : Source) (now : Int) :
    recordOf cfg (resetChannelHealth cfg t channelId source) channelId source =
        { recordOf cfg t channelId source with
          status := .healthy
          consecutiveFailures := 0
          consecutiveSuccesses := 0
          freezeUntil := 0
          nextFreezeTime := cfg.initialFreezeTime } ∧
      (getChannelHealthStatus (resetChannelHealth cfg t channelId source)
        channelId source now).status = .healthy ∧
      (getChannelHealthStatus (resetChannelHealth cfg t channelId source)
        channelId source now).consecutiveFailures = 0 ∧
      (getChannelHealthStatus (resetChannelHealth cfg t channelId source)
        channelId source now).consecutiveSuccesses = 0 ∧
      (getChannelHealthStatus (resetChannelHealth cfg t channelId source)
        channelId source now).totalFailures = (recordOf cfg t channelId source).totalFailures ∧
      (getChannelHealthStatus (resetChannelHealth cfg t channelId source)
        channelId source now).totalSuccesses = (recordOf cfg t channelId source).totalSuccesses ∧
      (getChannelHealthStatus (resetChannelHealth cfg t channelId source)
        channelId source now).freezeUntil = some 0 := by
  refine ⟨recordOf_resetChannelHealth cfg t channelId source, ?_⟩
  rw [resetChannelHealth_eq]
  simp [getChannelHealthStatus, mapGet_mapSet_self, Health.afterReset]

/-- Counterexample to C7 as stated: one failure is recorded on `C1`, then the channel is reset;
`getChannelHealthStatus` still reports `totalFailures = 1`, not 0. -/
theorem resetChannelHealth_totals_counterexample :
    (getChannelHealthStatus
        (resetChannelHealth healthConfig
          (recordFailure healthConfig emptyTracker "C1" .omitted 1000).tracker "C1" .omitted)
        "C1" .omitted 2000).totalFailures = 1 ∧
      (getChannelHealthStatus
        (resetChannelHealth healthConfig
          (recordFailure healthConfig emptyTracker "C1" .omitted 1000).tracker "C1" .omitted)
        "C1" .omitted 2000).totalFailures ≠ 0 := by
  decide

theorem recordFailureReentrant_eq (cfg : HealthConfig) (t : Tracker)
    (callback : Option ModuleCallback) (channelId : String) (source : Source) (now : Int) :
    recordFailureReentrant cfg t callback channelId source now =
      if (recordOf cfg t channelId source).freezesOnFailure cfg then
        match callback with
        | some callback =>
          { tracker :=
              { t with channelHealth :=
                  (callback source.orClaude channelId
                    (mapSet t.channelHealth (makeKey source.orDefault channelId)
                      ((recordOf cfg t channelId source).frozenAt cfg now))).1 }
            frozenCalls := [(source.orClaude, channelId)]
            thrown :=
              match (callback source.orClaude channelId
                  (mapSet t.channelHealth (makeKey source.orDefault channelId)
                    ((recordOf cfg t channelId source).frozenAt cfg now))).2 with
              | .ok _ => none
              | .error e => some e }
        | none =>
          { tracker :=
              { t with channelHealth :=
                  (mapSet t.channelHealth (makeKey source.orDefault channelId)
                    ((recordOf cfg t channelId source).frozenAt cfg now)) }
            frozenCalls := []
            thrown := none }
      else
        { tracker :=
            { t with channelHealth :=
                (mapSet t.channelHealth (makeKey source.orDefault channelId)
                  ((recordOf cfg t channelId source).afterFailure cfg now)) }
          frozenCalls := []
          thrown := none } := by
  have h1 := initChannelHealth_snd cfg t channelId source.orDefault
  have h2 := initChannelHealth_callback cfg t channelId source.orDefault
  have h3 := initChannelHealth_mapSet cfg t channelId source.orDefault
  rw [Source.orDefault_idem] at h3
  rw [recordOf_orDefault] at h1
  unfold recordFailureReentrant
  simp only [h1, h2, h3, Source.orDefault_orClaude]
  unfold Health.afterFailure Health.freezesOnFailure Health.frozenAt
  by_cases hs : (recordOf cfg t channelId source).status = .healthy ∨
      (recordOf cfg t channelId source).status = .checking
  · by_cases hc : (recordOf cfg t channelId source).consecutiveFailures + 1 ≥ cfg.failureThreshold
    · simp only [hs, hc, if_true, and_self]
      cases callback with
      | none => rfl
      | some cb =>
        simp only
        split <;> rename_i hran <;> simp [hran]
    · simp [hs, hc]
  · simp [hs]

/-- With a callback that leaves the tracker alone, `recordFailureReentrant` is
`recordFailure`. -/
theorem recordFailureReentrant_toModule (cfg : HealthConfig) (t : Tracker)
    (channelId : String) (source : Source) (now : Int) :
    recordFailureReentrant cfg t (t.onChannelFrozenCallback.map FrozenCallback.toModule)
        channelId source now =
      recordFailure cfg t channelId source now := by
  rw [recordFailureReentrant_eq, recordFailure_eq]
  by_cases hfr : (recordOf cfg t channelId source).freezesOnFailure cfg
  · simp only [hfr, if_true, Health.afterFailure, Health.frozenAt, frozenCallsOf, thrownOf,
      Source.orDefault_orClaude]
    cases hcb : t.onChannelFrozenCallback with
    | none => rfl
    | some cb =>
      simp only [Option.map_some', FrozenCallback.toModule]
  · simp only [hfr, if_false]

/-- C8, as the code has it: when a `recordFailure` call passes both freeze guards (status
healthy or checking, incremented `consecutiveFailures` at least `failureThreshold`) and a
callback is registered, whatever the callback does: the post-transition record (frozen,
`freezeUntil = now + nextFreezeTime`, `nextFreezeTime` multiplied and capped, counters
incremented) is in the map before the callback is called; the callback is called once, with
`(source || 'claude', channelId)`, on that map; nothing is written after it, so the map left by
`recordFailure` is the map left by the callback, whether it returns or throws; hence the record
stays in the committed state when the callback leaves the map alone. The call completes
normally exactly when the callback returns; what the callback throws leaves `recordFailure`
uncaught. -/
theorem recordFailure_commits_before_callback (cfg : HealthConfig) (t : Tracker)
    (channelId : String) (source : Source) (now : Int) (callback : ModuleCallback)
    (hstatus : (recordOf cfg t channelId source).status = .healthy ∨
      (recordOf cfg t channelId source).status = .checking)
    (hthr : cfg.failureThreshold ≤ (recordOf cfg t channelId source).consecutiveFailures + 1) :
    mapGet (mapSet t.channelHealth (makeKey source.orDefault channelId)
        ((recordOf cfg t channelId source).frozenAt cfg now))
        (makeKey source.orDefault channelId) =
        some ((recordOf cfg t channelId source).frozenAt cfg now) ∧
      (recordFailureReentrant cfg t (some callback) channelId source now).tracker.channelHealth =
        (callback source.orClaude channelId
          (mapSet t.channelHealth (makeKey source.orDefault channelId)
            ((recordOf cfg t channelId source).frozenAt cfg now))).1 ∧
      (recordFailureReentrant cfg t (some callback) channelId source now).frozenCalls =
        [(source.orClaude, channelId)] ∧
      (∀ e, (callback source.orClaude channelId
          (mapSet t.channelHealth (makeKey source.orDefault channelId)
            ((recordOf cfg t channelId source).frozenAt cfg now))).2 = .error e →
        (recordFailureReentrant cfg t (some callback) channelId source now).thrown = some e) ∧
      ((callback source.orClaude channelId
          (mapSet t.channelHealth (makeKey source.orDefault channelId)
            ((recordOf cfg t channelId source).frozenAt cfg now))).2 = .ok () →
        (recordFailureReentrant cfg t (some callback) channelId source now).thrown = none) ∧
      ((callback source.orClaude channelId
          (mapSet t.channelHealth (makeKey source.orDefault channelId)
            ((recordOf cfg t channelId source).frozenAt cfg now))).1 =
          mapSet t.channelHealth (makeKey source.orDefault channelId)
            ((recordOf cfg t channelId source).frozenAt cfg now) →
        recordOf cfg (recordFailureReentrant cfg t (some callback) channelId source now).tracker
            channelId source =
          (recordOf cfg t channelId source).frozenAt cfg now) := by
  have hfr : (recordOf cfg t channelId source).freezesOnFailure cfg := ⟨hstatus, hthr⟩
  rw [recordFailureReentrant_eq]
  simp only [hfr, if_true]
  refine ⟨mapGet_mapSet_self _ _ _, trivial, trivial, fun e he => ?_, fun hok => ?_,
    fun hleft => ?_⟩
  · rw [he]
  · rw [hok]
  · rw [hleft]
    exact recordOf_mapSet cfg t channelId source _

/-- Witness for C8: channel `C1` after two failures, with the callback
`(source, channelId) => resetChannelHealth(channelId, source)`. The third failure commits the
frozen record and calls the callback on it; the map left is the one the callback leaves, in
which the record is healthy again; nothing is thrown. -/
theorem recordFailure_commits_before_callback_witness :
    (recordFailureReentrant healthConfig
        (recordFailures healthConfig emptyTracker "C1" .omitted [10, 20]).1
        (some resettingCallback) "C1" .omitted 30).tracker.channelHealth =
        (resettingCallback "claude" "C1"
          (mapSet (recordFailures healthConfig emptyTracker "C1" .omitted [10, 20]).1.channelHealth
            "claude:C1"
            ((recordOf healthConfig
              (recordFailures healthConfig emptyTracker "C1" .omitted [10, 20]).1
              "C1" .omitted).frozenAt healthConfig 30))).1 ∧
      (recordOf healthConfig
        (recordFailureReentrant healthConfig
          (recordFailures healthConfig emptyTracker "C1" .omitted [10, 20]).1
          (some resettingCallback) "C1" .omitted 30).tracker "C1" .omitted).status = .healthy ∧
      (recordFailureReentrant healthConfig
        (recordFailures healthConfig emptyTracker "C1" .omitted [10, 20]).1
        (some resettingCallback) "C1" .omitted 30).thrown = none :=
  ⟨(recordFailure_commits_before_callback healthConfig
      (recordFailures healthConfig emptyTracker "C1" .omitted [10, 20]).1 "C1" .omitted 30
      resettingCallback (by decide) (by decide)).2.1,
    by decide,
    (recordFailure_commits_before_callback healthConfig
      (recordFailures healthConfig emptyTracker "C1" .omitted [10, 20]).1 "C1" .omitted 30
      resettingCallback (by decide) (by decide)).2.2.2.2.1 rfl⟩

/-- Counterexample to C8 as stated: with a registered callback that throws, the third failure
on `C1` freezes the record until 60030 and the exception leaves `recordFailure`. -/
theorem recordFailure_callback_throw_counterexample :
    (recordFailure healthConfig
        (recordFailures healthConfig
          (setOnChannelFrozen emptyTracker (some fun _ _ => .error "callback failed"))
          "C1" .omitted [10, 20]).1 "C1" .omitted 30).thrown = some "callback failed" ∧
      (recordOf healthConfig
        (recordFailure healthConfig
          (recordFailures healthConfig
            (setOnChannelFrozen emptyTracker (some fun _ _ => .error "callback failed"))
            "C1" .omitted [10, 20]).1 "C1" .omitted 30).tracker "C1" .omitted).status =
        .frozen ∧
      (recordOf healthConfig
        (recordFailure healthConfig
          (recordFailures healthConfig
            (setOnChannelFrozen emptyTracker (some fun _ _ => .error "callback failed"))
            "C1" .omitted [10, 20]).1 "C1" .omitted 30).tracker "C1" .omitted).freezeUntil =
        60030 := by
  decide

end ChannelHealth

namespace SpeedTest

/-! ## Ranking and classification of probe results -/

theorem mem_orderedInsert {α : Type} (cmp : α → α → JsNumber) (a x : α) (l : List α) :
    x ∈ orderedInsert cmp a l ↔ x = a ∨ x ∈ l := by
  induction l with
  | nil => simp [orderedInsert]
  | cons b rest ih =>
    unfold orderedInsert
    split_ifs
    · simp
    · simp only [List.mem_cons, ih]
      tauto

theorem mem_arraySort {α : Type} (cmp : α → α → JsNumber) (x : α) (l : List α) :
    x ∈ arraySort cmp l ↔ x ∈ l := by
  induction l with
  | nil => simp [arraySort]
  | cons a rest ih => simp [arraySort, mem_orderedInsert, ih]

theorem rankedBefore_of_keepsOrder (a b : ProbeResult) (ha : hasNonZeroLatency a)
    (hb : hasNonZeroLatency b) (hkeep : (compareResults a b).keepsOrder = true) :
    rankedBefore a b := by
  unfold hasNonZeroLatency at ha hb
  unfold compareResults at hkeep
  unfold rankedBefore
  cases hsa : a.success <;> cases hsb : b.success <;>
    simp [hsa, hsb, JsNumber.keepsOrder] at ha hb hkeep ⊢
  obtain ⟨x, hx, hx0⟩ := ha
  obtain ⟨y, hy, hy0⟩ := hb
  simp [hx, hy, latencyOrInfinity, hx0, hy0, JsNumber.sub, latencyLe] at hkeep ⊢
  exact hkeep

theorem rankedBefore_of_not_keepsOrder (a b : ProbeResult) (ha : hasNonZeroLatency a)
    (hb : hasNonZeroLatency b) (hswap : (compareResults a b).keepsOrder = false) :
    rankedBefore b a := by
  unfold hasNonZeroLatency at ha hb
  unfold compareResults at hswap
  unfold rankedBefore
  cases hsa : a.success <;> cases hsb : b.success <;>
    simp [hsa, hsb, JsNumber.keepsOrder] at ha hb hswap ⊢
  obtain ⟨x, hx, hx0⟩ := ha
  obtain ⟨y, hy, hy0⟩ := hb
  simp [hx, hy, latencyOrInfinity, hx0, hy0, JsNumber.sub, latencyLe] at hswap ⊢
  omega

theorem rankedBefore_trans (a b c : ProbeResult) (hb : hasNonZeroLatency b)
    (hab : rankedBefore a b) (hbc : rankedBefore b c) : rankedBefore a c := by
  refine ⟨fun hc => hab.1 (hbc.1 hc), fun hsa hsc => ?_⟩
  have hsb := hbc.1 hsc
  obtain ⟨y, hy, _⟩ := hb hsb
  have h1 := hab.2 hsa hsb
  have h2 := hbc.2 hsb hsc
  rw [hy] at h1 h2
  cases hx : a.latency <;> cases hz : c.latency <;> simp [hx, hz, latencyLe] at h1 h2 ⊢
  omega

theorem ranked_orderedInsert (a : ProbeResult) (l : List ProbeResult)
    (ha : hasNonZeroLatency a) (hl : ∀ r ∈ l, hasNonZeroLatency r) (hranked : Ranked l) :
    Ranked (orderedInsert compareResults a l) := by
  induction l with
  | nil => simp [orderedInsert, Ranked]
  | cons b rest ih =>
    have hb := hl b (List.mem_cons_self _ _)
    have hrest : ∀ r ∈ rest, hasNonZeroLatency r := fun r hr => hl r (List.mem_cons_of_mem _ hr)
    unfold Ranked at hranked ih ⊢
    rw [List.pairwise_cons] at hranked
    unfold orderedInsert
    cases hkeep : (compareResults a b).keepsOrder
    · simp only [Bool.false_eq_true, if_false]
      rw [List.pairwise_cons]
      refine ⟨fun x hx => ?_, ih hrest hranked.2⟩
      rcases (mem_orderedInsert compareResults a x rest).mp hx with hxa | hxr
      · rw [hxa]
        exact rankedBefore_of_not_keepsOrder a b ha hb hkeep
      · exact hranked.1 x hxr
    · simp only [if_true]
      have hab := rankedBefore_of_keepsOrder a b ha hb hkeep
      rw [List.pairwise_cons, List.pairwise_cons]
      refine ⟨fun x hx => ?_, hranked⟩
      rcases List.mem_cons.mp hx with hxb | hxr
      · rw [hxb]
        exact hab
      · exact rankedBefore_trans a b x hb hab (hranked.1 x hxr)

theorem testMultipleChannels_ranked_of_nonzero (results : List ProbeResult)
    (hnz : ∀ r ∈ results, hasNonZeroLatency r) : Ranked (testMultipleChannels results) := by
  unfold testMultipleChannels
  induction results with
  | nil => simp [arraySort, Ranked]
  | cons a rest ih =>
    have hrest : ∀ r ∈ rest, hasNonZeroLatency r := fun r hr => hnz r (List.mem_cons_of_mem _ hr)
    unfold arraySort
    exact ranked_orderedInsert a _ (hnz a (List.mem_cons_self _ _))
      (fun r hr => hrest r ((mem_arraySort compareResults r rest).mp hr)) (ih hrest)

/-- C9: the code at the failing input. Two successful results, the first measured at 0 ms and
the second at 5 ms: `testMultipleChannels` returns the 5 ms result in front of the 0 ms result,
so the successes are not in ascending order of latency. The comparator reads the latency
through `latency || Infinity`, which turns a measured 0 into `Infinity`. -/
theorem testMultipleChannels_zero_latency_last :
    testMultipleChannels [instantResult, quickResult] = [quickResult, instantResult] ∧
      ¬ Ranked (testMultipleChannels [instantResult, quickResult]) := by
  decide

/-- C10: the code at the failing input. A measured latency of 0 ms is below 300, yet
`getLatencyLevel` answers `'unknown'`, the value meant for a missing measurement: the guard
`!latency` is also true of the number 0. -/
theorem getLatencyLevel_zero_is_unknown :
    getLatencyLevel (some 0) = "unknown" ∧ getLatencyLevel (some 0) ≠ "excellent" ∧
      getLatencyLevel none = "unknown" := by
  decide

theorem getLatencyLevel_of_nonzero (ms : Int) (hpos : 0 < ms) :
    (getLatencyLevel (some ms) = "excellent" ↔ ms < 300) ∧
      (getLatencyLevel (some ms) = "good" ↔ 300 ≤ ms ∧ ms < 500) ∧
      (getLatencyLevel (some ms) = "fair" ↔ 500 ≤ ms ∧ ms < 800) ∧
      (getLatencyLevel (some ms) = "poor" ↔ 800 ≤ ms) ∧
      getLatencyLevel (some ms) ≠ "unknown" := by
  have hne : ms ≠ 0 := by omega
  unfold getLatencyLevel
  simp only [hne, if_false]
  split_ifs <;> refine ⟨?_, ?_, ?_, ?_, ?_⟩ <;> simp <;> omega

/-! ## Timeouts and the result cache -/

/-- C11: for every integer timeout, and for an omitted one, the timeout computed by
`sanitizeTimeout` lies between 2000 and 30000 ms; a supplied value already within these bounds
is returned as it is; an omitted timeout gives 8000. -/
theorem sanitizeTimeout_within_bounds (timeout : Option Int) :
    2000 ≤ sanitizeTimeout timeout ∧ sanitizeTimeout timeout ≤ 30000 ∧
      (∀ v : Int, timeout = some v → 2000 ≤ v → v ≤ 30000 → sanitizeTimeout timeout = v) ∧
      (timeout = none → sanitizeTimeout timeout = 8000) := by
  refine ⟨?_, ?_, fun v hv hlo hhi => ?_, fun hnone => ?_⟩
  · unfold sanitizeTimeout MIN_TIMEOUT MAX_TIMEOUT
    simp only [le_min_iff, le_max_iff]
    exact ⟨Or.inr le_rfl, by decide⟩
  · unfold sanitizeTimeout MAX_TIMEOUT
    exact min_le_right _ _
  · subst hv
    have hne : v ≠ 0 := by omega
    unfold sanitizeTimeout MIN_TIMEOUT MAX_TIMEOUT
    simp only [hne, if_false]
    rw [max_eq_left hlo, min_eq_left hhi]
  · subst hnone
    decide

/-- Witness for C11: a timeout of 5000 ms is kept. -/
theorem sanitizeTimeout_within_bounds_witness : sanitizeTimeout (some 5000) = 5000 :=
  (sanitizeTimeout_within_bounds (some 5000)).2.2.1 5000 rfl (by decide) (by decide)

theorem cacheGet_cacheSet_self (cache : TestResultsCache) (k : String) (v : ProbeResult) :
    cacheGet (cacheSet cache k v) k = some v := by
  induction cache with
  | nil => simp [cacheSet, cacheGet]
  | cons p rest ih =>
    obtain ⟨k0, w⟩ := p
    by_cases hk : k0 = k
    · simp [cacheSet, cacheGet, hk]
    · simp [cacheSet, cacheGet, hk, ih]

theorem cacheGet_cacheSet_ne (cache : TestResultsCache) (k k2 : String) (v : ProbeResult)
    (hne : k ≠ k2) : cacheGet (cacheSet cache k v) k2 = cacheGet cache k2 := by
  induction cache with
  | nil => simp [cacheSet, cacheGet, hne]
  | cons p rest ih =>
    obtain ⟨k0, w⟩ := p
    by_cases hk : k0 = k
    · subst hk
      simp [cacheSet, cacheGet, hne]
    · by_cases hk2 : k0 = k2
      · subst hk2
        simp [cacheSet, cacheGet, hk]
      · simp [cacheSet, cacheGet, hk, hk2, ih]

/-- C12: `getCachedResult` at time `now`. Without an entry for the id the answer is `null`.
With an entry stamped `testedAt`, the answer is that entry when `now - testedAt < 300000` and
`null` when `now - testedAt ≥ 300000`. The entry looked up is the one last written for the id,
and the call leaves the cache as it was. -/
theorem getCachedResult_fresh_or_null (cache : TestResultsCache) (channelId : String)
    (now : Int) :
    (cacheGet cache channelId = none → (getCachedResult cache channelId now).1 = none) ∧
      (∀ cached testedAt, cacheGet cache channelId = some cached →
        cached.testedAt = some testedAt →
          (now - testedAt < 300000 → (getCachedResult cache channelId now).1 = some cached) ∧
            (300000 ≤ now - testedAt → (getCachedResult cache channelId now).1 = none)) ∧
      (getCachedResult cache channelId now).2 = cache ∧
      (∀ r, cacheGet (cacheSet cache channelId r) channelId = some r) := by
  refine ⟨fun hnone => ?_, fun cached testedAt hget hts => ⟨fun hlt => ?_, fun hge => ?_⟩, ?_,
    fun r => cacheGet_cacheSet_self cache channelId r⟩
  · simp [getCachedResult, hnone]
  · have hfresh : isFresh cached now = true := by
      simp only [isFresh, hts, decide_eq_true_eq]
      omega
    simp [getCachedResult, hget, hfresh]
  · have hstale : isFresh cached now = false := by
      simp only [isFresh, hts, decide_eq_false_iff_not]
      omega
    simp [getCachedResult, hget, hstale]
  · unfold getCachedResult
    split
    · split_ifs <;> rfl
    · rfl

/-- Witness for C12: the 5 ms result cached at time 1000 is returned at time 300999 and is not
returned at time 301000. -/
theorem getCachedResult_fresh_or_null_witness :
    (getCachedResult [("b", quickResult)] "b" 300999).1 = some quickResult ∧
      (getCachedResult [("b", quickResult)] "b" 301000).1 = none :=
  ⟨((getCachedResult_fresh_or_null [("b", quickResult)] "b" 300999).2.1
      quickResult 1000 rfl rfl).1 (by decide),
    ((getCachedResult_fresh_or_null [("b", quickResult)] "b" 301000).2.1
      quickResult 1000 rfl rfl).2 (by decide)⟩

end SpeedTest

namespace ChannelHealth

/-! ## Status snapshots -/

theorem ceil_div_thousand (x : Int) : Int.ceil ((x : ℚ) / 1000) = (x + 999) / 1000 := by
  rw [Int.ceil_eq_iff]
  constructor
  · rw [lt_div_iff₀ (by norm_num)]
    have hlow : (((x + 999) / 1000 : Int) - 1) * 1000 < x := by omega
    exact_mod_cast hlow
  · rw [div_le_iff₀ (by norm_num)]
    have hhigh : x ≤ ((x + 999) / 1000 : Int) * 1000 := by omega
    exact_mod_cast hhigh

/-- C13: for a tracked channel, `getChannelHealthStatus` at time `now` reports the status and
the four counters of the record; `freezeRemaining` is the ceiling of
`max 0 (freezeUntil - now) / 1000`, which is `(max 0 (freezeUntil - now) + 999) / 1000` in
integer division and is never negative; the label is 健康, 冻结 or 检测中 for healthy, frozen or
checking. The call changes no record: a frozen record past its `freezeUntil` is reported as
frozen and stays frozen. -/
theorem getChannelHealthStatus_reports_record (cfg : HealthConfig) (t : Tracker)
    (channelId : String) (source : Source) (h : Health) (now : Int)
    (hget : mapGet t.channelHealth (makeKey source.orDefault channelId) = some h) :
    (getChannelHealthStatus t channelId source now).status = h.status ∧
      (getChannelHealthStatus t channelId source now).consecutiveFailures =
        h.consecutiveFailures ∧
      (getChannelHealthStatus t channelId source now).consecutiveSuccesses =
        h.consecutiveSuccesses ∧
      (getChannelHealthStatus t channelId source now).totalFailures = h.totalFailures ∧
      (getChannelHealthStatus t channelId source now).totalSuccesses = h.totalSuccesses ∧
      (getChannelHealthStatus t channelId source now).freezeRemaining =
        Int.ceil (((max 0 (h.freezeUntil - now) : Int) : ℚ) / 1000) ∧
      (getChannelHealthStatus t channelId source now).freezeRemaining =
        (max 0 (h.freezeUntil - now) + 999) / 1000 ∧
      0 ≤ (getChannelHealthStatus t channelId source now).freezeRemaining ∧
      (getChannelHealthStatus t channelId source now).statusText =
        (match h.status with
          | .healthy => "健康"
          | .frozen => "冻结"
          | .checking => "检测中") ∧
      applyOp cfg t (.getChannelHealthStatus channelId source now) = t ∧
      mapGet (applyOp cfg t (.getChannelHealthStatus channelId source now)).channelHealth
        (makeKey source.orDefault channelId) = some h := by
  have hsnap : getChannelHealthStatus t channelId source now =
      { status := h.status
        statusText := (statusMap h.status).1
        statusColor := (statusMap h.status).2
        consecutiveFailures := h.consecutiveFailures
        consecutiveSuccesses := h.consecutiveSuccesses
        totalFailures := h.totalFailures
        totalSuccesses := h.totalSuccesses
        freezeUntil := some h.freezeUntil
        freezeRemaining := Int.ceil (((max 0 (h.freezeUntil - now) : Int) : ℚ) / 1000) } := by
    simp [getChannelHealthStatus, hget]
  rw [hsnap]
  refine ⟨rfl, rfl, rfl, rfl, rfl, rfl, ceil_div_thousand _, ?_, ?_, rfl, hget⟩
  · apply Int.ceil_nonneg
    apply div_nonneg
    · exact_mod_cast le_max_left 0 (h.freezeUntil - now)
    · norm_num
  · cases h.status <;> rfl

/-- Witness for C13: channel `C1` frozen until 60030 and asked at time 70000, past the expiry:
the snapshot says frozen, with no freeze time remaining. -/
theorem getChannelHealthStatus_reports_record_witness :
    (getChannelHealthStatus (recordFailures healthConfig emptyTracker "C1" .omitted [10, 20, 30]).1
        "C1" .omitted 70000).status = .frozen ∧
      (getChannelHealthStatus
        (recordFailures healthConfig emptyTracker "C1" .omitted [10, 20, 30]).1
        "C1" .omitted 70000).freezeRemaining = (max 0 (60030 - 70000) + 999) / 1000 :=
  ⟨(getChannelHealthStatus_reports_record healthConfig
      (recordFailures healthConfig emptyTracker "C1" .omitted [10, 20, 30]).1 "C1" .omitted
      ⟨.frozen, 3, 0, 3, 0, 60030, 120000, some 30, .str "claude"⟩ 70000 (by decide)).1,
    (getChannelHealthStatus_reports_record healthConfig
      (recordFailures healthConfig emptyTracker "C1" .omitted [10, 20, 30]).1 "C1" .omitted
      ⟨.frozen, 3, 0, 3, 0, 60030, 120000, some 30, .str "claude"⟩ 70000
      (by decide)).2.2.2.2.2.2.1⟩

/-! ## Invariants of the reachable states -/

theorem reachable_forall (cfg : HealthConfig) (P : Health → Prop)
    (hfresh : ∀ s, P (freshHealth cfg s))
    (hsuccess : ∀ h now, P h → P (h.afterSuccess cfg now))
    (hfailure : ∀ h now, P h → P (h.afterFailure cfg now))
    (hexpiry : ∀ h, P h → P h.afterExpiry)
    (hreset : ∀ h, P h → P (h.afterReset cfg))
    (t : Tracker) (hreach : Reachable cfg t) :
    ∀ key h, mapGet t.channelHealth key = some h → P h := by
  induction hreach with
  | empty =>
    intro key h hget
    simp [emptyTracker, mapGet] at hget
  | step t op _ ih =>
    have hrec : ∀ channelId source, P (recordOf cfg t channelId source) :=
      fun channelId source => recordOf_forall P cfg t channelId source hfresh ih
    cases op with
    | recordSuccess channelId source now =>
      simp only [applyOp, recordSuccess_eq]
      exact mapGet_mapSet_forall _ _ _ _ (hsuccess _ now (hrec channelId source)) ih
    | recordFailure channelId source now =>
      simp only [applyOp, recordFailure_eq]
      exact mapGet_mapSet_forall _ _ _ _ (hfailure _ now (hrec channelId source)) ih
    | isChannelAvailable channelId source now =>
      simp only [applyOp]
      cases hget : mapGet t.channelHealth (makeKey source.orDefault channelId) with
      | none => rw [isChannelAvailable_of_none t channelId source now hget]; exact ih
      | some h =>
        rw [isChannelAvailable_of_some t channelId source now h hget]
        split_ifs with hs hge
        · exact mapGet_mapSet_forall _ _ _ _ (hexpiry h (ih _ h hget)) ih
        · exact ih
        · exact ih
    | getChannelHealthStatus channelId source now => exact ih
    | resetChannelHealth channelId source =>
      simp only [applyOp, resetChannelHealth_eq]
      exact mapGet_mapSet_forall _ _ _ _ (hreset _ (hrec channelId source)) ih
    | setOnChannelFrozen callback => exact ih

/-- C16: in every state reachable from the empty tracker, every record has
`consecutiveFailures = 0` or `consecutiveSuccesses = 0`. Moreover, from any state whatever,
`recordSuccess` leaves the record of its channel with `consecutiveFailures = 0` and
`recordFailure` leaves it with `consecutiveSuccesses = 0`. -/
theorem consecutive_counters_exclusive (cfg : HealthConfig) (t : Tracker)
    (hreach : Reachable cfg t) :
    (∀ key h, mapGet t.channelHealth key = some h →
        h.consecutiveFailures = 0 ∨ h.consecutiveSuccesses = 0) ∧
      (∀ (t2 : Tracker) (channelId : String) (source : Source) (now : Int),
        ∃ h, mapGet (recordSuccess cfg t2 channelId source now).channelHealth
            (makeKey source.orDefault channelId) = some h ∧ h.consecutiveFailures = 0) ∧
      (∀ (t2 : Tracker) (channelId : String) (source : Source) (now : Int),
        ∃ h, mapGet (recordFailure cfg t2 channelId source now).tracker.channelHealth
            (makeKey source.orDefault channelId) = some h ∧ h.consecutiveSuccesses = 0) := by
  refine ⟨?_, fun t2 channelId source now => ?_, fun t2 channelId source now => ?_⟩
  · apply reachable_forall cfg
      (fun h => h.consecutiveFailures = 0 ∨ h.consecutiveSuccesses = 0) _ _ _ _ _ t hreach
    · intro s
      exact Or.inl rfl
    · intro h now _
      unfold Health.afterSuccess
      split_ifs <;> exact Or.inl rfl
    · intro h now _
      unfold Health.afterFailure
      split_ifs <;> exact Or.inr rfl
    · intro h _
      exact Or.inr rfl
    · intro h _
      exact Or.inl rfl
  · rw [recordSuccess_eq]
    refine ⟨_, mapGet_mapSet_self _ _ _, ?_⟩
    unfold Health.afterSuccess
    split_ifs <;> rfl
  · rw [recordFailure_eq]
    refine ⟨_, mapGet_mapSet_self _ _ _, ?_⟩
    unfold Health.afterFailure
    split_ifs <;> rfl

/-- Witness for C16: in the probing scenario the record of `C1` has no consecutive failure and
one consecutive success. -/
theorem consecutive_counters_exclusive_witness :
    (recordOf healthConfig (runOps healthConfig emptyTracker probingScenario)
        "C1" .omitted).consecutiveFailures = 0 ∨
      (recordOf healthConfig (runOps healthConfig emptyTracker probingScenario)
        "C1" .omitted).consecutiveSuccesses = 0 :=
  (consecutive_counters_exclusive healthConfig (runOps healthConfig emptyTracker probingScenario)
    (reachable_runOps healthConfig _ _ Reachable.empty)).1 "claude:C1"
    ⟨.checking, 0, 1, 3, 1, 60030, 120000, some 60040, .str "claude"⟩ (by decide)

theorem countersOk_fresh (cfg : HealthConfig) (hthr : 1 ≤ cfg.failureThreshold)
    (h1 : cfg.initialFreezeTime ≤ cfg.maxFreezeTime) (s : Source) :
    (freshHealth cfg s).countersOk cfg :=
  ⟨fun _ => hthr, le_rfl, le_rfl, le_rfl, h1⟩

theorem countersOk_afterSuccess (cfg : HealthConfig) (hthr : 1 ≤ cfg.failureThreshold)
    (h1 : cfg.initialFreezeTime ≤ cfg.maxFreezeTime) (h : Health) (now : Int)
    (hok : h.countersOk cfg) : (h.afterSuccess cfg now).countersOk cfg := by
  obtain ⟨_, _, hcs, hlo, hhi⟩ := hok
  unfold Health.afterSuccess
  split_ifs
  · exact ⟨fun _ => hthr, Nat.zero_le _, Nat.succ_le_succ hcs, le_rfl, h1⟩
  · exact ⟨fun _ => hthr, Nat.zero_le _, Nat.succ_le_succ hcs, hlo, hhi⟩

theorem countersOk_afterFailure (cfg : HealthConfig) (h0 : 0 ≤ cfg.initialFreezeTime)
    (h1 : cfg.initialFreezeTime ≤ cfg.maxFreezeTime) (hm : 1 ≤ cfg.freezeMultiplier)
    (h : Health) (now : Int) (hok : h.countersOk cfg) :
    (h.afterFailure cfg now).countersOk cfg := by
  obtain ⟨_, hcf, _, hlo, hhi⟩ := hok
  unfold Health.afterFailure
  split_ifs with hfr
  · refine ⟨fun hs => ?_, Nat.succ_le_succ hcf, Nat.zero_le _, ?_, min_le_right _ _⟩
    · exact absurd (show Status.frozen = Status.healthy from hs) (by decide)
    · exact le_trans (le_min hlo h1) (nextDuration_ge cfg h0 hm _ hlo)
  · refine ⟨fun hs => ?_, Nat.succ_le_succ hcf, Nat.zero_le _, hlo, hhi⟩
    unfold Health.freezesOnFailure at hfr
    have hs2 : h.status = .healthy := hs
    simp only [hs2, true_or, true_and, ge_iff_le, not_le] at hfr
    exact hfr

theorem countersOk_afterExpiry (cfg : HealthConfig) (h : Health) (hok : h.countersOk cfg) :
    h.afterExpiry.countersOk cfg := by
  obtain ⟨_, hcf, _, hlo, hhi⟩ := hok
  exact ⟨fun hs => absurd (show Status.checking = Status.healthy from hs) (by decide), hcf,
    Nat.zero_le _, hlo, hhi⟩

theorem countersOk_afterReset (cfg : HealthConfig) (hthr : 1 ≤ cfg.failureThreshold)
    (h1 : cfg.initialFreezeTime ≤ cfg.maxFreezeTime) (h : Health) :
    (h.afterReset cfg).countersOk cfg :=
  ⟨fun _ => hthr, Nat.zero_le _, Nat.zero_le _, le_rfl, h1⟩

/-- C19: for a configuration with `failureThreshold ≥ 1`,
`0 ≤ initialFreezeTime ≤ maxFreezeTime` and `freezeMultiplier ≥ 1`, as the one in the source,
every record of every state reachable from the empty tracker satisfies: a healthy record has
`consecutiveFailures < failureThreshold`; `consecutiveFailures ≤ totalFailures`;
`consecutiveSuccesses ≤ totalSuccesses`; and
`initialFreezeTime ≤ nextFreezeTime ≤ maxFreezeTime`. -/
theorem reachable_records_wellformed (cfg : HealthConfig) (hthr : 1 ≤ cfg.failureThreshold)
    (h0 : 0 ≤ cfg.initialFreezeTime) (h1 : cfg.initialFreezeTime ≤ cfg.maxFreezeTime)
    (hm : 1 ≤ cfg.freezeMultiplier) (t : Tracker) (hreach : Reachable cfg t)
    (key : String) (h : Health) (hget : mapGet t.channelHealth key = some h) :
    (h.status = .healthy → h.consecutiveFailures < cfg.failureThreshold) ∧
      h.consecutiveFailures ≤ h.totalFailures ∧
      h.consecutiveSuccesses ≤ h.totalSuccesses ∧
      cfg.initialFreezeTime ≤ h.nextFreezeTime ∧
      h.nextFreezeTime ≤ cfg.maxFreezeTime :=
  reachable_forall cfg (fun r => r.countersOk cfg)
    (countersOk_fresh cfg hthr h1)
    (fun r now hok => countersOk_afterSuccess cfg hthr h1 r now hok)
    (fun r now hok => countersOk_afterFailure cfg h0 h1 hm r now hok)
    (fun r hok => countersOk_afterExpiry cfg r hok)
    (fun r _ => countersOk_afterReset cfg hthr h1 r)
    t hreach key h hget

/-- Witness for C19: the record of `C1` in the probing scenario, under the configuration of the
source. -/
theorem reachable_records_wellformed_witness :
    (recordOf healthConfig (runOps healthConfig emptyTracker probingScenario)
        "C1" .omitted).consecutiveFailures ≤
        (recordOf healthConfig (runOps healthConfig emptyTracker probingScenario)
          "C1" .omitted).totalFailures ∧
      (recordOf healthConfig (runOps healthConfig emptyTracker probingScenario)
        "C1" .omitted).consecutiveSuccesses ≤
        (recordOf healthConfig (runOps healthConfig emptyTracker probingScenario)
          "C1" .omitted).totalSuccesses ∧
      healthConfig.initialFreezeTime ≤
        (recordOf healthConfig (runOps healthConfig emptyTracker probingScenario)
          "C1" .omitted).nextFreezeTime ∧
      (recordOf healthConfig (runOps healthConfig emptyTracker probingScenario)
        "C1" .omitted).nextFreezeTime ≤ healthConfig.maxFreezeTime :=
  (reachable_records_wellformed healthConfig (by decide) (by decide) (by decide) (by decide)
    (runOps healthConfig emptyTracker probingScenario)
    (reachable_runOps healthConfig _ _ Reachable.empty) "claude:C1"
    ⟨.checking, 0, 1, 3, 1, 60030, 120000, some 60040, .str "claude"⟩ (by decide)).2

/-! ## Keys, enumeration and separation of records -/

/-- C14: the code at the failing input. One failure was recorded on channel `a:b` of source
`claude`, so that channel has a record, and its snapshot shows `totalFailures = 1`. The object
returned by `getAllChannelHealthStatus('claude')` has the single key `a`: it has no entry for
`a:b`, and the entry under `a` is the default snapshot of an untracked channel. The loop
recovers the id with `key.split(':')` and keeps the first two pieces only. -/
theorem getAllChannelHealthStatus_colon_in_id :
    mapGet colonIdTracker.channelHealth (makeKey (.str "claude") "a:b") ≠ none ∧
      mapGet colonIdTracker.channelHealth (makeKey (.str "claude") "a") = none ∧
      (getAllChannelHealthStatus colonIdTracker (.str "claude") 20).map Prod.fst = ["a"] ∧
      objGet (getAllChannelHealthStatus colonIdTracker (.str "claude") 20) "a:b" = none ∧
      (getChannelHealthStatus colonIdTracker "a:b" (.str "claude") 20).totalFailures = 1 ∧
      (objGet (getAllChannelHealthStatus colonIdTracker (.str "claude") 20) "a").map
        (fun s => s.totalFailures) = some 0 := by
  decide

/-- Counterexample to C15 as stated: the pairs `('a:b', 'c')` and `('a', 'b:c')` are distinct
and have the same key `a:b:c`, so they share one record: after one `recordFailure` on
`('a:b', 'c')` in the empty tracker, the snapshot of `('a', 'b:c')` shows `totalFailures = 1`
where it showed 0 before. -/
theorem makeKey_collision_shares_record :
    channelPair (.str "a:b") "c" ≠ channelPair (.str "a") "b:c" ∧
      makeKey (.str "a:b") "c" = makeKey (.str "a") "b:c" ∧
      (getChannelHealthStatus emptyTracker "b:c" (.str "a") 20).totalFailures = 0 ∧
      (getChannelHealthStatus
        (recordFailure healthConfig emptyTracker "c" (.str "a:b") 10).tracker
        "b:c" (.str "a") 20).totalFailures = 1 := by
  decide

theorem getChannelHealthStatus_congr (t t2 : Tracker) (channelId : String) (source : Source)
    (now : Int)
    (hget : mapGet t2.channelHealth (makeKey source.orDefault channelId) =
      mapGet t.channelHealth (makeKey source.orDefault channelId)) :
    getChannelHealthStatus t2 channelId source now =
      getChannelHealthStatus t channelId source now := by
  unfold getChannelHealthStatus
  simp only [hget]

/-- Separation of records with different keys: a call on one channel leaves the snapshot of
every channel with a different key as it was. -/
theorem snapshot_unchanged_of_key_ne (cfg : HealthConfig) (t : Tracker)
    (channelId channelId2 : String) (source source2 : Source) (now now2 : Int)
    (hkey : makeKey source.orDefault channelId ≠ makeKey source2.orDefault channelId2) :
    getChannelHealthStatus (recordSuccess cfg t channelId source now) channelId2 source2 now2 =
        getChannelHealthStatus t channelId2 source2 now2 ∧
      getChannelHealthStatus (recordFailure cfg t channelId source now).tracker
          channelId2 source2 now2 =
        getChannelHealthStatus t channelId2 source2 now2 ∧
      getChannelHealthStatus (isChannelAvailable t channelId source now).2
          channelId2 source2 now2 =
        getChannelHealthStatus t channelId2 source2 now2 ∧
      getChannelHealthStatus (resetChannelHealth cfg t channelId source) channelId2 source2 now2 =
        getChannelHealthStatus t channelId2 source2 now2 := by
  refine ⟨?_, ?_, ?_, ?_⟩
  · apply getChannelHealthStatus_congr
    rw [recordSuccess_eq]
    exact mapGet_mapSet_ne _ _ _ _ hkey
  · apply getChannelHealthStatus_congr
    rw [recordFailure_eq]
    exact mapGet_mapSet_ne _ _ _ _ hkey
  · apply getChannelHealthStatus_congr
    cases hget : mapGet t.channelHealth (makeKey source.orDefault channelId) with
    | none => rw [isChannelAvailable_of_none t channelId source now hget]
    | some h =>
      rw [isChannelAvailable_of_some t channelId source now h hget]
      split_ifs
      · exact mapGet_mapSet_ne _ _ _ _ hkey
      · rfl
      · rfl
  · apply getChannelHealthStatus_congr
    rw [resetChannelHealth_eq]
    exact mapGet_mapSet_ne _ _ _ _ hkey

theorem append_colon_inj (a c b d : List Char) (ha : ':' ∉ a) (hc : ':' ∉ c)
    (heq : a ++ ':' :: b = c ++ ':' :: d) : a = c ∧ b = d := by
  induction a generalizing c with
  | nil =>
    cases c with
    | nil => simpa using heq
    | cons y c =>
      simp only [List.nil_append, List.cons_append, List.cons.injEq] at heq
      exact absurd (heq.1 ▸ List.mem_cons_self _ _) hc
  | cons x a ih =>
    cases c with
    | nil =>
      simp only [List.nil_append, List.cons_append, List.cons.injEq] at heq
      exact absurd (heq.1 ▸ List.mem_cons_self _ _) ha
    | cons y c =>
      simp only [List.cons_append, List.cons.injEq] at heq
      obtain ⟨hxy, hrest⟩ := heq
      obtain ⟨hac, hbd⟩ := ih c (fun hmem => ha (List.mem_cons_of_mem _ hmem))
        (fun hmem => hc (List.mem_cons_of_mem _ hmem)) hrest
      exact ⟨by rw [hxy, hac], hbd⟩

/-- Keys of sources without a colon determine the pair: the first colon of the key ends the
source. -/
theorem makeKey_injective_of_no_colon (source source2 : Source) (channelId channelId2 : String)
    (hs : ':' ∉ source.orClaude.data) (hs2 : ':' ∉ source2.orClaude.data)
    (hkey : makeKey source channelId = makeKey source2 channelId2) :
    source.orClaude = source2.orClaude ∧ channelId = channelId2 := by
  unfold makeKey at hkey
  have hdata := congrArg String.data hkey
  simp only [String.data_append, List.append_assoc] at hdata
  obtain ⟨h1, h2⟩ := append_colon_inj _ _ _ _ hs hs2 hdata
  exact ⟨String.ext h1, String.ext h2⟩

/-- An omitted, `null` or empty source addresses the key of source `'claude'`. -/
theorem makeKey_default_source (channelId : String) :
    makeKey Source.omitted.orDefault channelId = makeKey (.str "claude") channelId ∧
      makeKey Source.null.orDefault channelId = makeKey (.str "claude") channelId ∧
      makeKey (Source.str "").orDefault channelId = makeKey (.str "claude") channelId :=
  ⟨rfl, rfl, rfl⟩

end ChannelHealth

namespace SpeedTest

/-! ## The probe of one channel -/

theorem sanitizeTimeout_default (timeout : Option Int) :
    sanitizeTimeout
        (match timeout with
          | none => some DEFAULT_TIMEOUT
          | some v => some v) = sanitizeTimeout timeout := by
  cases timeout <;> rfl

theorem testChannelSpeed_missing (env : ProbeEnv) (cache : TestResultsCache)
    (channel : Channel) (timeout : Option Int)
    (hbase : channel.baseUrl = none ∨ channel.baseUrl = some "") :
    testChannelSpeed env cache channel timeout =
      .ok { result := failureResult channel "URL 不能为空", cache := cache, requests := 0 } := by
  unfold testChannelSpeed testChannelSpeedTry
  simp only [hbase, if_true]

theorem testChannelSpeed_invalid (env : ProbeEnv) (cache : TestResultsCache)
    (channel : Channel) (timeout : Option Int) (urlError : String)
    (hbase : ¬ (channel.baseUrl = none ∨ channel.baseUrl = some ""))
    (hurl : env.urlToString (channel.baseUrl.getD "") = .error urlError) :
    testChannelSpeed env cache channel timeout =
      .ok { result := failureResult channel ("URL 无效: " ++ urlError), cache := cache,
            requests := 0 } := by
  unfold testChannelSpeed testChannelSpeedTry
  simp only [hbase, if_false, hurl]

theorem testChannelSpeed_rejected (env : ProbeEnv) (cache : TestResultsCache)
    (channel : Channel) (timeout : Option Int) (url : String) (message : Option String)
    (hbase : ¬ (channel.baseUrl = none ∨ channel.baseUrl = some ""))
    (hurl : env.urlToString (channel.baseUrl.getD "") = .ok url)
    (hreq : makeRequest (env.network 1 (stripTrailingSlashes url) channel.apiKey
      (sanitizeTimeout timeout)) = .error message) :
    testChannelSpeed env cache channel timeout =
      .ok { result := failureResult channel (orElse message "连接失败"), cache := cache,
            requests := 2 } := by
  unfold testChannelSpeed testChannelSpeedTry
  simp only [hbase, if_false, hurl, sanitizeTimeout_default, issueRequest, Nat.zero_add,
    Nat.reduceAdd, hreq]

theorem testChannelSpeed_measured (env : ProbeEnv) (cache : TestResultsCache)
    (channel : Channel) (timeout : Option Int) (url : String) (result : RequestResult)
    (hbase : ¬ (channel.baseUrl = none ∨ channel.baseUrl = some ""))
    (hurl : env.urlToString (channel.baseUrl.getD "") = .ok url)
    (hreq : makeRequest (env.network 1 (stripTrailingSlashes url) channel.apiKey
      (sanitizeTimeout timeout)) = .ok result) :
    testChannelSpeed env cache channel timeout =
      .ok { result :=
              { channelId := channel.id
                channelName := channel.name
                success := result.statusCode.isSome
                statusCode := result.statusCode
                error := result.error
                latency :=
                  if result.statusCode.isSome then some (env.endTime - env.startTime) else none
                testedAt := some env.testedAt }
            cache := cacheSet cache channel.id
              { channelId := channel.id
                channelName := channel.name
                success := result.statusCode.isSome
                statusCode := result.statusCode
                error := result.error
                latency :=
                  if result.statusCode.isSome then some (env.endTime - env.startTime) else none
                testedAt := some env.testedAt }
            requests := 2 } := by
  unfold testChannelSpeed testChannelSpeedTry
  simp only [hbase, if_false, hurl, sanitizeTimeout_default, issueRequest, Nat.zero_add,
    Nat.reduceAdd, hreq]

theorem makeRequest_resolves (event : NetworkEvent) (hevent : ∀ m, event ≠ .threw m) :
    ∃ result, makeRequest event = .ok result := by
  cases event with
  | response statusCode => exact ⟨_, rfl⟩
  | error code message => exact ⟨_, rfl⟩
  | timeout => exact ⟨_, rfl⟩
  | threw m => exact absurd rfl (hevent m)

/-- C17, as the code has it: when the base URL is present and parses, and the timed request
ends with an HTTP response, a network error or a timeout, `testChannelSpeed` returns a result
`r` stamped `testedAt` and the cache holds `r` under `channel.id`, so that `getCachedResult`
at any time `now` with `now - testedAt < 300000` returns `r`. When the base URL is missing,
empty or malformed, or the timed request throws, the returned result carries no timestamp and
the cache is left as it was. -/
theorem testChannelSpeed_caches_measured_results (env : ProbeEnv) (cache : TestResultsCache)
    (channel : Channel) (timeout : Option Int) :
    (∀ url, ¬ (channel.baseUrl = none ∨ channel.baseUrl = some "") →
        env.urlToString (channel.baseUrl.getD "") = .ok url →
        (∀ m, env.network 1 (stripTrailingSlashes url) channel.apiKey
          (sanitizeTimeout timeout) ≠ .threw m) →
        ∃ out, testChannelSpeed env cache channel timeout = .ok out ∧
          out.result.testedAt = some env.testedAt ∧
          out.cache = cacheSet cache channel.id out.result ∧
          ∀ now : Int, now - env.testedAt < 300000 →
            (getCachedResult out.cache channel.id now).1 = some out.result) ∧
      ((channel.baseUrl = none ∨ channel.baseUrl = some "") ∨
          (∃ urlError, env.urlToString (channel.baseUrl.getD "") = .error urlError) ∨
          (∃ url m, env.urlToString (channel.baseUrl.getD "") = .ok url ∧
            env.network 1 (stripTrailingSlashes url) channel.apiKey
              (sanitizeTimeout timeout) = .threw m) →
        ∃ out, testChannelSpeed env cache channel timeout = .ok out ∧
          out.result.testedAt = none ∧ out.cache = cache) := by
  constructor
  · intro url hbase hurl hevent
    obtain ⟨result, hreq⟩ := makeRequest_resolves _ hevent
    refine ⟨_, testChannelSpeed_measured env cache channel timeout url result hbase hurl hreq,
      rfl, rfl, fun now hnow => ?_⟩
    have hfresh : ∀ r : ProbeResult, r.testedAt = some env.testedAt → isFresh r now = true := by
      intro r hr
      simp only [isFresh, hr, decide_eq_true_eq]
      omega
    simp only [getCachedResult, cacheGet_cacheSet_self]
    rw [hfresh _ rfl]
    rfl
  · intro hpath
    by_cases hbase : channel.baseUrl = none ∨ channel.baseUrl = some ""
    · exact ⟨_, testChannelSpeed_missing env cache channel timeout hbase, rfl, rfl⟩
    · rcases hpath with hmissing | ⟨urlError, hurl⟩ | ⟨url, m, hurl, hevent⟩
      · exact absurd hmissing hbase
      · exact ⟨_, testChannelSpeed_invalid env cache channel timeout urlError hbase hurl,
          rfl, rfl⟩
      · have hreq : makeRequest (env.network 1 (stripTrailingSlashes url) channel.apiKey
            (sanitizeTimeout timeout)) = .error m := by
          rw [hevent]
          rfl
        exact ⟨_, testChannelSpeed_rejected env cache channel timeout url m hbase hurl hreq,
          rfl, rfl⟩

/-- Witness for C17: a channel with a base URL, answered 200; the result is stamped 1006 and is
found in the cache at time 2000. -/
theorem testChannelSpeed_caches_measured_results_witness :
    ∃ out, testChannelSpeed respondingEnv [] channelWithUrl none = .ok out ∧
      out.result.testedAt = some respondingEnv.testedAt ∧
      out.cache = cacheSet [] channelWithUrl.id out.result ∧
      ∀ now : Int, now - respondingEnv.testedAt < 300000 →
        (getCachedResult out.cache channelWithUrl.id now).1 = some out.result :=
  (testChannelSpeed_caches_measured_results respondingEnv [] channelWithUrl none).1
    "https://api.example.com/" (by decide) rfl
    (fun m hm => NetworkEvent.noConfusion hm)

/-- Counterexample to C17 as stated: a channel without a base URL is probed with an empty
cache; `testChannelSpeed` returns the failure result `r`, the cache stays empty, and
`getCachedResult` for the channel id one millisecond later answers `null`, not `r`. -/
theorem testChannelSpeed_validation_failure_counterexample :
    testChannelSpeed respondingEnv [] channelWithoutUrl none =
        .ok { result := failureResult channelWithoutUrl "URL 不能为空", cache := [],
              requests := 0 } ∧
      (getCachedResult [] channelWithoutUrl.id 1001).1 = none ∧
      (getCachedResult [] channelWithoutUrl.id 1001).1 ≠
        some (failureResult channelWithoutUrl "URL 不能为空") :=
  ⟨rfl, by decide, by decide⟩

theorem orElse_ne_empty (message : Option String) (fallback : String) (hf : fallback ≠ "") :
    orElse message fallback ≠ "" := by
  unfold orElse
  cases message with
  | none => exact hf
  | some m =>
    simp only
    split_ifs with hm
    · exact hf
    · exact hm

theorem makeRequest_error_text (code message : Option String) :
    ∃ text, makeRequest (.error code message) = .ok { statusCode := none, error := some text } ∧
      text ≠ "" ∧ (code = some "ECONNREFUSED" → text = "连接被拒绝") := by
  refine ⟨if code = some "ECONNREFUSED" then "连接被拒绝"
      else if code = some "ETIMEDOUT" then "连接超时"
      else if code = some "ENOTFOUND" then "DNS 解析失败"
      else if code = some "ECONNRESET" then "连接被重置"
      else orElse message "连接失败", rfl, ?_, fun hcode => ?_⟩
  · split_ifs
    · decide
    · decide
    · decide
    · decide
    · exact orElse_ne_empty message _ (by decide)
  · rw [if_pos hcode]

/-- C18: for every channel descriptor, every timeout and every behaviour of the URL parser, the
network and the clock, `testChannelSpeed` returns a result for that channel and throws nothing;
in the result `success` is true exactly when `statusCode` is not `null`, and `latency` is not
`null` exactly when `success` is true. Path by path: a missing or empty `baseUrl` gives the
failure `'URL 不能为空'` (no status code, no latency, non-empty error text) and no request is
issued; a malformed one gives the failure `'URL 无效: …'`, again without a request; otherwise
two requests are issued and the timed one decides: an HTTP response with any status code gives
`success = true` with that status code and the latency `endTime - startTime`; an `error` event
or a timeout gives a failure with a non-empty error text; an exception thrown by the request is
caught and gives a failure. -/
theorem testChannelSpeed_returns_result (env : ProbeEnv) (cache : TestResultsCache)
    (channel : Channel) (timeout : Option Int) :
    ∃ out, testChannelSpeed env cache channel timeout = .ok out ∧
      (out.result.success = true ↔ out.result.statusCode ≠ none) ∧
      (out.result.latency ≠ none ↔ out.result.success = true) ∧
      out.result.channelId = channel.id ∧ out.result.channelName = channel.name ∧
      (channel.baseUrl = none ∨ channel.baseUrl = some "" →
        out.result.success = false ∧ out.result.latency = none ∧
          out.result.statusCode = none ∧
          (∃ text, out.result.error = some text ∧ text ≠ "") ∧ out.requests = 0 ∧
          out.result.error = some "URL 不能为空") ∧
      (∀ urlError, ¬ (channel.baseUrl = none ∨ channel.baseUrl = some "") →
        env.urlToString (channel.baseUrl.getD "") = .error urlError →
        out.result.success = false ∧ out.result.latency = none ∧
          out.result.statusCode = none ∧
          out.result.error = some ("URL 无效: " ++ urlError) ∧ out.requests = 0) ∧
      (∀ url, ¬ (channel.baseUrl = none ∨ channel.baseUrl = some "") →
        env.urlToString (channel.baseUrl.getD "") = .ok url →
        (∀ statusCode,
          env.network 1 (stripTrailingSlashes url) channel.apiKey (sanitizeTimeout timeout) =
            .response statusCode →
          out.result.success = true ∧ out.result.statusCode = some statusCode ∧
            out.result.latency = some (env.endTime - env.startTime) ∧
            out.result.error = none ∧ out.requests = 2) ∧
        (∀ code message,
          env.network 1 (stripTrailingSlashes url) channel.apiKey (sanitizeTimeout timeout) =
            .error code message →
          out.result.success = false ∧ out.result.statusCode = none ∧
            out.result.latency = none ∧
            (∃ text, out.result.error = some text ∧ text ≠ "" ∧
              (code = some "ECONNREFUSED" → text = "连接被拒绝")) ∧
            out.requests = 2) ∧
        (env.network 1 (stripTrailingSlashes url) channel.apiKey (sanitizeTimeout timeout) =
            .timeout →
          out.result.success = false ∧ out.result.statusCode = none ∧
            out.result.latency = none ∧ out.result.error = some "请求超时" ∧
            out.requests = 2) ∧
        (∀ message,
          env.network 1 (stripTrailingSlashes url) channel.apiKey (sanitizeTimeout timeout) =
            .threw message →
          out.result.success = false ∧ out.result.statusCode = none ∧
            out.result.latency = none ∧
            out.result.error = some (orElse message "连接失败") ∧ out.requests = 2)) := by
  by_cases hbase : channel.baseUrl = none ∨ channel.baseUrl = some ""
  · refine ⟨_, testChannelSpeed_missing env cache channel timeout hbase, ?_, ?_, rfl, rfl,
      fun _ => ⟨rfl, rfl, rfl, ⟨_, rfl, by decide⟩, rfl, rfl⟩,
      fun _ hnot _ => absurd hbase hnot, fun _ hnot _ => absurd hbase hnot⟩
    · simp [failureResult]
    · simp [failureResult]
  · cases hurl : env.urlToString (channel.baseUrl.getD "") with
    | error urlError =>
      refine ⟨_, testChannelSpeed_invalid env cache channel timeout urlError hbase hurl,
        ?_, ?_, rfl, rfl, fun hmissing => absurd hmissing hbase, fun e _ he => ?_,
        fun url _ hok => ?_⟩
      · simp [failureResult]
      · simp [failureResult]
      · cases he
        exact ⟨rfl, rfl, rfl, rfl, rfl⟩
      · cases hok
    | ok url =>
      cases hev : env.network 1 (stripTrailingSlashes url) channel.apiKey
          (sanitizeTimeout timeout) with
      | response statusCode =>
        have hreq : makeRequest (env.network 1 (stripTrailingSlashes url) channel.apiKey
            (sanitizeTimeout timeout)) =
            .ok { statusCode := some statusCode, error := none } := by
          rw [hev]; rfl
        refine ⟨_, testChannelSpeed_measured env cache channel timeout url _ hbase hurl hreq,
          ?_, ?_, rfl, rfl, fun hmissing => absurd hmissing hbase, fun e _ he => ?_,
          fun url2 _ hok => ?_⟩
        · simp
        · simp
        · cases he
        · cases hok
          refine ⟨fun sc hsc => ?_, fun code message h => ?_, fun h => ?_, fun m h => ?_⟩
          · rw [hev] at hsc
            cases hsc
            exact ⟨rfl, rfl, rfl, rfl, rfl⟩
          · rw [hev] at h
            cases h
          · rw [hev] at h
            cases h
          · rw [hev] at h
            cases h
      | error code message =>
        obtain ⟨text, hmake, htext, hrefused⟩ := makeRequest_error_text code message
        have hreq : makeRequest (env.network 1 (stripTrailingSlashes url) channel.apiKey
            (sanitizeTimeout timeout)) = .ok { statusCode := none, error := some text } := by
          rw [hev]; exact hmake
        refine ⟨_, testChannelSpeed_measured env cache channel timeout url _ hbase hurl hreq,
          ?_, ?_, rfl, rfl, fun hmissing => absurd hmissing hbase, fun e _ he => ?_,
          fun url2 _ hok => ?_⟩
        · simp
        · simp
        · cases he
        · cases hok
          refine ⟨fun sc hsc => ?_, fun code2 message2 h => ?_, fun h => ?_, fun m h => ?_⟩
          · rw [hev] at hsc
            cases hsc
          · rw [hev] at h
            cases h
            exact ⟨rfl, rfl, rfl, ⟨text, rfl, htext, hrefused⟩, rfl⟩
          · rw [hev] at h
            cases h
          · rw [hev] at h
            cases h
      | timeout =>
        have hreq : makeRequest (env.network 1 (stripTrailingSlashes url) channel.apiKey
            (sanitizeTimeout timeout)) =
            .ok { statusCode := none, error := some "请求超时" } := by
          rw [hev]; rfl
        refine ⟨_, testChannelSpeed_measured env cache channel timeout url _ hbase hurl hreq,
          ?_, ?_, rfl, rfl, fun hmissing => absurd hmissing hbase, fun e _ he => ?_,
          fun url2 _ hok => ?_⟩
        · simp
        · simp
        · cases he
        · cases hok
          refine ⟨fun sc hsc => ?_, fun code message h => ?_, fun _ => ?_, fun m h => ?_⟩
          · rw [hev] at hsc
            cases hsc
          · rw [hev] at h
            cases h
          · exact ⟨rfl, rfl, rfl, rfl, rfl⟩
          · rw [hev] at h
            cases h
      | threw m =>
        have hreq : makeRequest (env.network 1 (stripTrailingSlashes url) channel.apiKey
            (sanitizeTimeout timeout)) = .error m := by
          rw [hev]; rfl
        refine ⟨_, testChannelSpeed_rejected env cache channel timeout url m hbase hurl hreq,
          ?_, ?_, rfl, rfl, fun hmissing => absurd hmissing hbase, fun e _ he => ?_,
          fun url2 _ hok => ?_⟩
        · simp [failureResult]
        · simp [failureResult]
        · cases he
        · cases hok
          refine ⟨fun sc hsc => ?_, fun code message h => ?_, fun h => ?_, fun m2 h => ?_⟩
          · rw [hev] at hsc
            cases hsc
          · rw [hev] at h
            cases h
          · rw [hev] at h
            cases h
          · rw [hev] at h
            cases h
            exact ⟨rfl, rfl, rfl, rfl, rfl⟩

/-- Witness for C18: a channel with a base URL whose server answers 503 is reported as
reachable, with status code 503 and the latency measured between the two clock readings, after
two requests. -/
theorem testChannelSpeed_returns_result_witness :
    ∃ out, testChannelSpeed overloadedEnv [] channelWithUrl none = .ok out ∧
      out.result.success = true ∧ out.result.statusCode = some 503 ∧
      out.result.latency = some (overloadedEnv.endTime - overloadedEnv.startTime) ∧
      out.result.error = none ∧ out.requests = 2 := by
  obtain ⟨out, hout, _, _, _, _, _, _, hmeasured⟩ :=
    testChannelSpeed_returns_result overloadedEnv [] channelWithUrl none
  exact ⟨out, hout, (hmeasured "https://api.example.com/" (by decide) rfl).1 503 rfl⟩

end SpeedTest

namespace ChannelHealth

/-! ## Enumeration when no key has a second colon -/

theorem splitChars_of_not_mem (sep : Char) (l : List Char) (hl : sep ∉ l) :
    splitChars sep l = [l] := by
  induction l with
  | nil => rfl
  | cons c rest ih =>
    have hc : c ≠ sep := fun h => hl (h ▸ List.mem_cons_self _ _)
    have hrest : sep ∉ rest := fun h => hl (List.mem_cons_of_mem _ h)
    simp [splitChars, hc, ih hrest]

theorem splitChars_append (sep : Char) (a b : List Char) (ha : sep ∉ a) :
    splitChars sep (a ++ sep :: b) = a :: splitChars sep b := by
  induction a with
  | nil => simp [splitChars]
  | cons c rest ih =>
    have hc : c ≠ sep := fun h => ha (h ▸ List.mem_cons_self _ _)
    have hrest : sep ∉ rest := fun h => ha (List.mem_cons_of_mem _ h)
    simp [splitChars, hc, ih hrest]

theorem splitColon_goodKey (source channelId : String) (hs : ':' ∉ source.data)
    (hc : ':' ∉ channelId.data) :
    splitColon (source ++ ":" ++ channelId) = [source, channelId] := by
  unfold splitColon
  have hdata : (source ++ ":" ++ channelId).data = source.data ++ ':' :: channelId.data := by
    simp [String.data_append]
  rw [hdata, splitChars_append _ _ _ hs, splitChars_of_not_mem _ _ hc]
  rfl

theorem Source.orClaude_ne_empty (s : Source) : s.orClaude ≠ "" := by
  cases s with
  | omitted => decide
  | null => decide
  | str v =>
    show (if v = "" then "claude" else v) ≠ ""
    split_ifs with hv
    · decide
    · exact hv

theorem objGet_objSetOwn (result : List (String × HealthSnapshot)) (k k2 : String)
    (v : HealthSnapshot) :
    objGet (objSetOwn result k v) k2 = if k = k2 then some v else objGet result k2 := by
  induction result with
  | nil => simp [objSetOwn, objGet]
  | cons p rest ih =>
    obtain ⟨k0, w⟩ := p
    by_cases hk : k0 = k
    · subst hk
      by_cases hk2 : k0 = k2 <;> simp [objSetOwn, objGet, hk2]
    · by_cases hk2 : k0 = k2
      · subst hk2
        have hne : ¬ k = k0 := fun h => hk h.symm
        simp [objSetOwn, objGet, hk, hne]
      · simp [objSetOwn, objGet, hk, hk2, ih]

theorem objGet_objSet (result : List (String × HealthSnapshot)) (k k2 : String)
    (v : HealthSnapshot) (hk : k ≠ "__proto__") :
    objGet (objSet result k v) k2 = if k = k2 then some v else objGet result k2 := by
  unfold objSet
  rw [if_neg hk]
  exact objGet_objSetOwn result k k2 v

theorem mapGet_ne_none_iff (m : List (String × Health)) (key : String) :
    mapGet m key ≠ none ↔ key ∈ m.map Prod.fst := by
  induction m with
  | nil => simp [mapGet]
  | cons p rest ih =>
    obtain ⟨k0, w⟩ := p
    by_cases hk : k0 = key
    · simp [mapGet, hk]
    · have hne : ¬ key = k0 := fun h => hk h.symm
      simp [mapGet, hk, hne, ih]

theorem getAll_foldl (t : Tracker) (source : Source) (now : Int)
    (hsource : ':' ∉ source.orClaude.data) (keys : List String)
    (hkeys : ∀ k ∈ keys, GoodKey k) (result : List (String × HealthSnapshot))
    (channelId : String) :
    objGet (keys.foldl (getAllStep t source now) result) channelId =
      if makeKey source channelId ∈ keys then
        some (getChannelHealthStatus t channelId (.str source.orClaude) now)
      else objGet result channelId := by
  induction keys generalizing result with
  | nil => simp
  | cons k rest ih =>
    have hrest : ∀ k2 ∈ rest, GoodKey k2 := fun k2 h2 => hkeys k2 (List.mem_cons_of_mem _ h2)
    obtain ⟨src, cid, hk, hsrc, hcid, hproto⟩ := hkeys k (List.mem_cons_self _ _)
    rw [List.foldl_cons, ih hrest]
    by_cases hmem : makeKey source channelId ∈ rest
    · simp [hmem]
    · simp only [hmem, if_false, List.mem_cons, or_false]
      have hstep : getAllStep t source now result k =
          if src = source.orClaude then
            objSet result cid (getChannelHealthStatus t cid (.str src) now)
          else result := by
        unfold getAllStep
        rw [hk, splitColon_goodKey src cid hsrc hcid]
        rfl
      rw [hstep]
      by_cases hsame : src = source.orClaude
      · subst hsame
        rw [if_pos rfl, objGet_objSet _ _ _ _ hproto]
        by_cases hid : cid = channelId
        · subst hid
          have hkey : makeKey source cid = k := by rw [hk]; rfl
          rw [if_pos rfl, if_pos hkey]
        · have hkey : ¬ makeKey source channelId = k := by
            intro heq
            rw [hk] at heq
            exact hid (makeKey_injective_of_no_colon source source channelId cid hsource hsource
              heq).2.symm
          rw [if_neg hid, if_neg hkey]
      · have hkey : ¬ makeKey source channelId = k := by
          intro heq
          rw [hk] at heq
          have hdata := congrArg String.data heq
          unfold makeKey at hdata
          simp only [String.data_append, List.append_assoc] at hdata
          exact hsame (String.ext (append_colon_inj _ _ _ _ hsource hsrc hdata).1).symm
        rw [if_neg hsame, if_neg hkey]

/-- The extent of the enumeration defect: when every key of the map has exactly one colon, no
channel id is the property name `__proto__` and the requested source contains no colon, the
object returned by `getAllChannelHealthStatus` has an own property for a channel id exactly
when that id has a record under the source, and its value is the snapshot
`getChannelHealthStatus` gives for it. -/
theorem getAllChannelHealthStatus_of_goodKeys (t : Tracker) (source : Source) (now : Int)
    (hsource : ':' ∉ source.orClaude.data)
    (hkeys : ∀ k ∈ t.channelHealth.map Prod.fst, GoodKey k) (channelId : String) :
    objGet (getAllChannelHealthStatus t source now) channelId =
      if mapGet t.channelHealth (makeKey source.orDefault channelId) ≠ none then
        some (getChannelHealthStatus t channelId source now)
      else none := by
  unfold getAllChannelHealthStatus
  have hs2 : ':' ∉ source.orDefault.orClaude.data := by
    rw [Source.orDefault_orClaude]; exact hsource
  rw [getAll_foldl t source.orDefault now hs2 _ hkeys [] channelId]
  have hsnap : getChannelHealthStatus t channelId (.str source.orDefault.orClaude) now =
      getChannelHealthStatus t channelId source now := by
    unfold getChannelHealthStatus
    have hkey : makeKey (Source.str source.orDefault.orClaude).orDefault channelId =
        makeKey source.orDefault channelId := by
      have hne := Source.orClaude_ne_empty source.orDefault
      have hsrc : (Source.str source.orDefault.orClaude).orDefault.orClaude =
          source.orDefault.orClaude := by
        show (if source.orDefault.orClaude = "" then "claude"
          else source.orDefault.orClaude) = source.orDefault.orClaude
        rw [if_neg hne]
      unfold makeKey
      rw [hsrc]
    simp only [hkey]
  rw [hsnap]
  by_cases hmem : makeKey source.orDefault channelId ∈ t.channelHealth.map Prod.fst
  · rw [if_pos hmem, if_pos ((mapGet_ne_none_iff _ _).mpr hmem)]
  · rw [if_neg hmem, if_neg (fun h => hmem ((mapGet_ne_none_iff _ _).mp h))]
    rfl

/-! ## Separation of the records of distinct channels -/

/-- C15, as the code has it: for two pairs (source, channel id) that differ after defaulting
and whose sources contain no colon, the channel ids being arbitrary strings, the keys differ
and the records are separate: `recordSuccess`, `recordFailure`, `isChannelAvailable` and
`resetChannelHealth` on the first pair leave the snapshot of the second pair as it was. An
omitted, `null` or empty source gives the key of source `'claude'`. -/
theorem distinct_pairs_have_separate_records (cfg : HealthConfig) (t : Tracker)
    (channelId channelId2 : String) (source source2 : Source) (now now2 : Int)
    (hs : ':' ∉ source.orClaude.data) (hs2 : ':' ∉ source2.orClaude.data)
    (hne : channelPair source channelId ≠ channelPair source2 channelId2) :
    makeKey source.orDefault channelId ≠ makeKey source2.orDefault channelId2 ∧
      getChannelHealthStatus (recordSuccess cfg t channelId source now)
          channelId2 source2 now2 =
        getChannelHealthStatus t channelId2 source2 now2 ∧
      getChannelHealthStatus (recordFailure cfg t channelId source now).tracker
          channelId2 source2 now2 =
        getChannelHealthStatus t channelId2 source2 now2 ∧
      getChannelHealthStatus (isChannelAvailable t channelId source now).2
          channelId2 source2 now2 =
        getChannelHealthStatus t channelId2 source2 now2 ∧
      getChannelHealthStatus (resetChannelHealth cfg t channelId source)
          channelId2 source2 now2 =
        getChannelHealthStatus t channelId2 source2 now2 ∧
      makeKey Source.omitted.orDefault channelId = makeKey (.str "claude") channelId ∧
      makeKey Source.null.orDefault channelId = makeKey (.str "claude") channelId ∧
      makeKey (Source.str "").orDefault channelId = makeKey (.str "claude") channelId := by
  have hkey : makeKey source.orDefault channelId ≠ makeKey source2.orDefault channelId2 := by
    intro heq
    have h1 : ':' ∉ source.orDefault.orClaude.data := by
      rw [Source.orDefault_orClaude]; exact hs
    have h2 : ':' ∉ source2.orDefault.orClaude.data := by
      rw [Source.orDefault_orClaude]; exact hs2
    obtain ⟨hsrc, hid⟩ := makeKey_injective_of_no_colon _ _ _ _ h1 h2 heq
    apply hne
    unfold channelPair
    rw [hsrc, hid]
  obtain ⟨h1, h2, h3, h4⟩ := snapshot_unchanged_of_key_ne cfg t channelId channelId2 source
    source2 now now2 hkey
  exact ⟨hkey, h1, h2, h3, h4, rfl, rfl, rfl⟩

/-- Witness for C15: a failure recorded on channel `C1` of the default source leaves the
snapshot of channel `C1` of source `codex` as it was. -/
theorem distinct_pairs_have_separate_records_witness :
    getChannelHealthStatus (recordFailure healthConfig emptyTracker "C1" .omitted 10).tracker
        "C1" (.str "codex") 20 =
      getChannelHealthStatus emptyTracker "C1" (.str "codex") 20 :=
  (distinct_pairs_have_separate_records healthConfig emptyTracker "C1" "C1" .omitted
    (.str "codex") 10 20 (by decide) (by decide) (by decide)).2.2.1

end ChannelHealth
